import Mathlib

set_option maxHeartbeats 1000000

namespace Segment

/-- JSON values: the model of `serde_json::Value`. Objects are ordered lists of
key-value pairs, recording the order in which the serializer emits keys. -/
inductive Json where
  | null : Json
  | bool (b : Bool) : Json
  | num (n : Int) : Json
  | str (s : String) : Json
  | arr (elems : List Json) : Json
  | obj (fields : List (String × Json)) : Json

mutual

/-- Decidable equality of JSON values (the derive handler does not support
nested inductives, so it is written out). -/
def Json.decEq : (a b : Json) → Decidable (a = b)
  | .null, .null => .isTrue rfl
  | .null, .bool _ => .isFalse (fun h => Json.noConfusion h)
  | .null, .num _ => .isFalse (fun h => Json.noConfusion h)
  | .null, .str _ => .isFalse (fun h => Json.noConfusion h)
  | .null, .arr _ => .isFalse (fun h => Json.noConfusion h)
  | .null, .obj _ => .isFalse (fun h => Json.noConfusion h)
  | .bool _, .null => .isFalse (fun h => Json.noConfusion h)
  | .bool x, .bool y =>
    if h : x = y then .isTrue (congrArg Json.bool h)
    else .isFalse (fun c => h (Json.bool.inj c))
  | .bool _, .num _ => .isFalse (fun h => Json.noConfusion h)
  | .bool _, .str _ => .isFalse (fun h => Json.noConfusion h)
  | .bool _, .arr _ => .isFalse (fun h => Json.noConfusion h)
  | .bool _, .obj _ => .isFalse (fun h => Json.noConfusion h)
  | .num _, .null => .isFalse (fun h => Json.noConfusion h)
  | .num _, .bool _ => .isFalse (fun h => Json.noConfusion h)
  | .num x, .num y =>
    if h : x = y then .isTrue (congrArg Json.num h)
    else .isFalse (fun c => h (Json.num.inj c))
  | .num _, .str _ => .isFalse (fun h => Json.noConfusion h)
  | .num _, .arr _ => .isFalse (fun h => Json.noConfusion h)
  | .num _, .obj _ => .isFalse (fun h => Json.noConfusion h)
  | .str _, .null => .isFalse (fun h => Json.noConfusion h)
  | .str _, .bool _ => .isFalse (fun h => Json.noConfusion h)
  | .str _, .num _ => .isFalse (fun h => Json.noConfusion h)
  | .str x, .str y =>
    if h : x = y then .isTrue (congrArg Json.str h)
    else .isFalse (fun c => h (Json.str.inj c))
  | .str _, .arr _ => .isFalse (fun h => Json.noConfusion h)
  | .str _, .obj _ => .isFalse (fun h => Json.noConfusion h)
  | .arr _, .null => .isFalse (fun h => Json.noConfusion h)
  | .arr _, .bool _ => .isFalse (fun h => Json.noConfusion h)
  | .arr _, .num _ => .isFalse (fun h => Json.noConfusion h)
  | .arr _, .str _ => .isFalse (fun h => Json.noConfusion h)
  | .arr xs, .arr ys =>
    match Json.decEqList xs ys with
    | .isTrue h => .isTrue (congrArg Json.arr h)
    | .isFalse h => .isFalse (fun c => h (Json.arr.inj c))
  | .arr _, .obj _ => .isFalse (fun h => Json.noConfusion h)
  | .obj _, .null => .isFalse (fun h => Json.noConfusion h)
  | .obj _, .bool _ => .isFalse (fun h => Json.noConfusion h)
  | .obj _, .num _ => .isFalse (fun h => Json.noConfusion h)
  | .obj _, .str _ => .isFalse (fun h => Json.noConfusion h)
  | .obj _, .arr _ => .isFalse (fun h => Json.noConfusion h)
  | .obj xs, .obj ys =>
    match Json.decEqFields xs ys with
    | .isTrue h => .isTrue (congrArg Json.obj h)
    | .isFalse h => .isFalse (fun c => h (Json.obj.inj c))

/-- Decidable equality of JSON arrays. -/
def Json.decEqList : (xs ys : List Json) → Decidable (xs = ys)
  | [], [] => .isTrue rfl
  | [], _ :: _ => .isFalse (fun h => List.noConfusion h)
  | _ :: _, [] => .isFalse (fun h => List.noConfusion h)
  | x :: xs, y :: ys =>
    match Json.decEq x y, Json.decEqList xs ys with
    | .isTrue h₁, .isTrue h₂ => .isTrue (by rw [h₁, h₂])
    | .isFalse h₁, _ => .isFalse (fun c => h₁ (List.cons.inj c).1)
    | _, .isFalse h₂ => .isFalse (fun c => h₂ (List.cons.inj c).2)

/-- Decidable equality of JSON object field lists. -/
def Json.decEqFields : (xs ys : List (String × Json)) → Decidable (xs = ys)
  | [], [] => .isTrue rfl
  | [], _ :: _ => .isFalse (fun h => List.noConfusion h)
  | _ :: _, [] => .isFalse (fun h => List.noConfusion h)
  | (k₁, v₁) :: xs, (k₂, v₂) :: ys =>
    if hk : k₁ = k₂ then
      match Json.decEq v₁ v₂, Json.decEqFields xs ys with
      | .isTrue hv, .isTrue ht => .isTrue (by rw [hk, hv, ht])
      | .isFalse hv, _ => .isFalse (by
          intro c
          injection c with h₁ h₂
          injection h₁ with hk₂ hv₂
          exact hv hv₂)
      | _, .isFalse ht => .isFalse (by
          intro c
          injection c with h₁ h₂
          exact ht h₂)
    else
      .isFalse (by
        intro c
        injection c with h₁ h₂
        injection h₁ with hk₂ hv₂
        exact hk hk₂)

end

instance : DecidableEq Json := Json.decEq

instance exceptDecEq {ε α : Type} [DecidableEq ε] [DecidableEq α] :
    DecidableEq (Except ε α) := fun a b =>
  match a, b with
  | Except.error e₁, Except.error e₂ =>
    if h : e₁ = e₂ then .isTrue (congrArg Except.error h)
    else .isFalse (fun c => h (Except.error.inj c))
  | Except.error _, Except.ok _ => .isFalse (fun c => Except.noConfusion c)
  | Except.ok _, Except.error _ => .isFalse (fun c => Except.noConfusion c)
  | Except.ok a₁, Except.ok a₂ =>
    if h : a₁ = a₂ then .isTrue (congrArg Except.ok h)
    else .isFalse (fun c => h (Except.ok.inj c))

/-- Sorted insertion into a key-ordered association list: the model of
`BTreeMap::insert` underlying `serde_json::Map` (later insertions of an
existing key replace its value). -/
def mapInsert (k : String) (v : Json) : List (String × Json) → List (String × Json)
  | [] => [(k, v)]
  | (k', v') :: rest =>
    if k < k' then (k, v) :: (k', v') :: rest
    else if k = k' then (k, v) :: rest
    else (k', v') :: mapInsert k v rest

/-- Collecting a sequence of key-value pairs into a `BTreeMap`, as
`FromIterator` does: left-to-right insertion. -/
def mapOfList (fs : List (String × Json)) : List (String × Json) :=
  fs.foldl (fun m kv => mapInsert kv.1 kv.2 m) []

/-- First value bound to a key in an object, the occurrence a map
deserializer sees first. -/
def lookupField (k : String) : List (String × Json) → Option Json
  | [] => none
  | (k', v) :: rest => if k' = k then some v else lookupField k rest

/-- Remove the first binding of a key (the occurrence a deserializer
consumes). -/
def eraseFirstKey (k : String) : List (String × Json) → List (String × Json)
  | [] => []
  | (k', v) :: rest => if k' = k then rest else (k', v) :: eraseFirstKey k rest

/-- Number of bindings of a key in an object. -/
def keyCount (k : String) (fs : List (String × Json)) : Nat :=
  (fs.filter (fun p => p.1 == k)).length

/-- The fields of an object that are not bound to any of the given named
keys, in order: what serde buffers for the flattened fields. -/
def leftoverFields (names : List String) : List (String × Json) →
    List (String × Json)
  | [] => []
  | (k, v) :: rest =>
    if k ∈ names then leftoverFields names rest
    else (k, v) :: leftoverFields names rest

/-- serde errors with `duplicate field` when a named field occurs twice. -/
def noDupNamed (names : List String) (fs : List (String × Json)) : Bool :=
  names.all (fun n => keyCount n fs ≤ 1)

/-- The external `time::OffsetDateTime`, modelled by its RFC3339 wire rendering (the code
never inspects the structure of a timestamp, only serializes it through
`time::serde::rfc3339`). -/
structure OffsetDateTime where
  rfc3339 : String
  deriving DecidableEq

/-- The `User` enum: the three legal identity shapes (`src/message.rs`, enum `User`,
untagged, with wire names `userId` / `anonymousId`). -/
inductive User where
  | UserId (user_id : String)
  | AnonymousId (anonymous_id : String)
  | Both (user_id : String) (anonymous_id : String)
  deriving DecidableEq

/-- The `Display for User` impl: both ids present prefers the user id. -/
def User.display : User → String
  | User.UserId u => u
  | User.AnonymousId a => a
  | User.Both u _ => u

/-- The `Default for User` impl: an empty anonymous id. -/
def User.default : User := User.AnonymousId ""

/-- The wire projection of the user id carried by an identity, if any. -/
def User.userId? : User → Option String
  | User.UserId u => some u
  | User.AnonymousId _ => none
  | User.Both u _ => some u

/-- The wire projection of the anonymous id carried by an identity, if any. -/
def User.anonymousId? : User → Option String
  | User.UserId _ => none
  | User.AnonymousId a => some a
  | User.Both _ a => some a

/-- The `Identify` struct (`src/message.rs`): flattened user, required traits,
optional timestamp / context / integrations, flattened extra map. -/
structure Identify where
  user : User
  traits : Json
  timestamp : Option OffsetDateTime
  context : Option Json
  integrations : Option Json
  extra : List (String × Json)
  deriving DecidableEq

/-- The `Track` struct (`src/message.rs`). -/
structure Track where
  user : User
  event : String
  properties : Json
  timestamp : Option OffsetDateTime
  context : Option Json
  integrations : Option Json
  extra : List (String × Json)
  deriving DecidableEq

/-- The `Page` struct (`src/message.rs`): the page name is optional and is not
marked skip-serializing, so an absent name serializes as an explicit null. -/
structure Page where
  user : User
  name : Option String
  properties : Json
  timestamp : Option OffsetDateTime
  context : Option Json
  integrations : Option Json
  extra : List (String × Json)
  deriving DecidableEq

/-- The `Screen` struct (`src/message.rs`). -/
structure Screen where
  user : User
  name : String
  properties : Json
  timestamp : Option OffsetDateTime
  context : Option Json
  integrations : Option Json
  extra : List (String × Json)
  deriving DecidableEq

/-- The `Group` struct (`src/message.rs`): `group_id` renamed to `groupId` on the
wire. -/
structure Group where
  user : User
  group_id : String
  traits : Json
  timestamp : Option OffsetDateTime
  context : Option Json
  integrations : Option Json
  extra : List (String × Json)
  deriving DecidableEq

/-- The `Alias` struct (`src/message.rs`): `previous_id` renamed to `previousId`
on the wire. -/
structure Alias where
  user : User
  previous_id : String
  timestamp : Option OffsetDateTime
  context : Option Json
  integrations : Option Json
  extra : List (String × Json)
  deriving DecidableEq

/-- The `BatchMessage` enum (`src/message.rs`): the six leaf kinds allowed inside
a batch, tagged with `type` on the wire. -/
inductive BatchMessage where
  | Identify (i : Identify)
  | Track (t : Track)
  | Page (p : Page)
  | Screen (s : Screen)
  | Group (g : Group)
  | Alias (a : Alias)
  deriving DecidableEq

/-- The `Batch` struct (`src/message.rs`): items plus optional context and
integrations and a flattened extra map; no identity or timestamp of its
own. -/
structure Batch where
  batch : List BatchMessage
  context : Option Json
  integrations : Option Json
  extra : List (String × Json)
  deriving DecidableEq

/-- The `Message` enum (`src/message.rs`): the untagged transport union of the
seven kinds. -/
inductive Message where
  | Identify (i : Identify)
  | Track (t : Track)
  | Page (p : Page)
  | Screen (s : Screen)
  | Group (g : Group)
  | Alias (a : Alias)
  | Batch (b : Batch)
  deriving DecidableEq

/-- The `StoredMessage` enum (`src/message.rs`): the same seven kinds, tagged
with an explicit `type` discriminant on the wire. -/
inductive StoredMessage where
  | Identify (i : Identify)
  | Track (t : Track)
  | Page (p : Page)
  | Screen (s : Screen)
  | Group (g : Group)
  | Alias (a : Alias)
  | Batch (b : Batch)
  deriving DecidableEq

/-- The `Message::path` method (`src/message.rs`): destination path per message kind. -/
def Message.path : Message → String
  | Message.Identify _ => "/v1/identify"
  | Message.Track _ => "/v1/track"
  | Message.Page _ => "/v1/page"
  | Message.Screen _ => "/v1/screen"
  | Message.Group _ => "/v1/group"
  | Message.Alias _ => "/v1/alias"
  | Message.Batch _ => "/v1/batch"

/-- The `From<StoredMessage> for Message` impl (`src/message.rs`): the conversion
layer, a structural relabeling. -/
def StoredMessage.toMessage : StoredMessage → Message
  | StoredMessage.Identify i => Message.Identify i
  | StoredMessage.Track t => Message.Track t
  | StoredMessage.Page p => Message.Page p
  | StoredMessage.Screen s => Message.Screen s
  | StoredMessage.Group g => Message.Group g
  | StoredMessage.Alias a => Message.Alias a
  | StoredMessage.Batch b => Message.Batch b

/-- Serialization of a flattened `User`: the wire fields of the matched
variant, in declaration order. -/
def serializeUser : User → List (String × Json)
  | User.UserId u => [("userId", Json.str u)]
  | User.AnonymousId a => [("anonymousId", Json.str a)]
  | User.Both u a => [("userId", Json.str u), ("anonymousId", Json.str a)]

/-- An optional field under `skip_serializing_if = "Option::is_none"`:
emitted only when present. -/
def optField (k : String) : Option Json → List (String × Json)
  | none => []
  | some v => [(k, v)]

/-- The optional timestamp under `time::serde::rfc3339::option`: emitted as
an RFC3339 string only when present. -/
def timestampField : Option OffsetDateTime → List (String × Json)
  | none => []
  | some t => [("timestamp", Json.str t.rfc3339)]

/-- An `Option<String>` field without a skip attribute (the `Page` name): an absent
value serializes as an explicit null. -/
def optStringJson : Option String → Json
  | none => Json.null
  | some s => Json.str s

/-- The emitted fields of an `Identify`, in struct declaration order:
flattened user, traits, optional timestamp / context / integrations,
flattened extra map. -/
def Identify.fields (i : Identify) : List (String × Json) :=
  serializeUser i.user ++ [("traits", i.traits)] ++ timestampField i.timestamp
    ++ optField "context" i.context ++ optField "integrations" i.integrations
    ++ i.extra

/-- The emitted fields of a `Track`. -/
def Track.fields (t : Track) : List (String × Json) :=
  serializeUser t.user ++ [("event", Json.str t.event), ("properties", t.properties)]
    ++ timestampField t.timestamp
    ++ optField "context" t.context ++ optField "integrations" t.integrations
    ++ t.extra

/-- The emitted fields of a `Page`. -/
def Page.fields (p : Page) : List (String × Json) :=
  serializeUser p.user ++ [("name", optStringJson p.name), ("properties", p.properties)]
    ++ timestampField p.timestamp
    ++ optField "context" p.context ++ optField "integrations" p.integrations
    ++ p.extra

/-- The emitted fields of a `Screen`. -/
def Screen.fields (s : Screen) : List (String × Json) :=
  serializeUser s.user ++ [("name", Json.str s.name), ("properties", s.properties)]
    ++ timestampField s.timestamp
    ++ optField "context" s.context ++ optField "integrations" s.integrations
    ++ s.extra

/-- The emitted fields of a `Group` (wire name `groupId`). -/
def Group.fields (g : Group) : List (String × Json) :=
  serializeUser g.user ++ [("groupId", Json.str g.group_id), ("traits", g.traits)]
    ++ timestampField g.timestamp
    ++ optField "context" g.context ++ optField "integrations" g.integrations
    ++ g.extra

/-- The emitted fields of an `Alias` (wire name `previousId`). -/
def Alias.fields (a : Alias) : List (String × Json) :=
  serializeUser a.user ++ [("previousId", Json.str a.previous_id)]
    ++ timestampField a.timestamp
    ++ optField "context" a.context ++ optField "integrations" a.integrations
    ++ a.extra

/-- The wire discriminant of a batch item (`serde(rename)` on each
`BatchMessage` variant). -/
def BatchMessage.typeName : BatchMessage → String
  | BatchMessage.Identify _ => "identify"
  | BatchMessage.Track _ => "track"
  | BatchMessage.Page _ => "page"
  | BatchMessage.Screen _ => "screen"
  | BatchMessage.Group _ => "group"
  | BatchMessage.Alias _ => "alias"

/-- A batch item on the wire: `BatchMessage` is internally tagged, so the
discriminant is emitted first, then the variant fields. -/
def BatchMessage.toJson : BatchMessage → Json
  | BatchMessage.Identify i => Json.obj (("type", Json.str "identify") :: i.fields)
  | BatchMessage.Track t => Json.obj (("type", Json.str "track") :: t.fields)
  | BatchMessage.Page p => Json.obj (("type", Json.str "page") :: p.fields)
  | BatchMessage.Screen s => Json.obj (("type", Json.str "screen") :: s.fields)
  | BatchMessage.Group g => Json.obj (("type", Json.str "group") :: g.fields)
  | BatchMessage.Alias a => Json.obj (("type", Json.str "alias") :: a.fields)

/-- The emitted fields of a `Batch`: the item array (items always tagged),
optional context / integrations, flattened extra map. -/
def Batch.fields (b : Batch) : List (String × Json) :=
  [("batch", Json.arr (b.batch.map BatchMessage.toJson))]
    ++ optField "context" b.context ++ optField "integrations" b.integrations
    ++ b.extra

/-- The emitted fields of a `Message` in transport form: `Message` is
untagged, so exactly the variant fields, no discriminant. -/
def Message.fieldsTransport : Message → List (String × Json)
  | Message.Identify i => i.fields
  | Message.Track t => t.fields
  | Message.Page p => p.fields
  | Message.Screen s => s.fields
  | Message.Group g => g.fields
  | Message.Alias a => a.fields
  | Message.Batch b => b.fields

/-- Transport encoding of a `Message`: the untagged JSON object. -/
def Message.toJson (m : Message) : Json :=
  Json.obj m.fieldsTransport

/-- The wire discriminant of a stored record (`rename_all = "snake_case"` on
`StoredMessage`). -/
def StoredMessage.typeName : StoredMessage → String
  | StoredMessage.Identify _ => "identify"
  | StoredMessage.Track _ => "track"
  | StoredMessage.Page _ => "page"
  | StoredMessage.Screen _ => "screen"
  | StoredMessage.Group _ => "group"
  | StoredMessage.Alias _ => "alias"
  | StoredMessage.Batch _ => "batch"

/-- The emitted fields of a `StoredMessage`: the `type` discriminant first,
then the variant fields. -/
def StoredMessage.fields : StoredMessage → List (String × Json)
  | StoredMessage.Identify i => ("type", Json.str "identify") :: i.fields
  | StoredMessage.Track t => ("type", Json.str "track") :: t.fields
  | StoredMessage.Page p => ("type", Json.str "page") :: p.fields
  | StoredMessage.Screen s => ("type", Json.str "screen") :: s.fields
  | StoredMessage.Group g => ("type", Json.str "group") :: g.fields
  | StoredMessage.Alias a => ("type", Json.str "alias") :: a.fields
  | StoredMessage.Batch b => ("type", Json.str "batch") :: b.fields

/-- Stored encoding of a `StoredMessage`: the tagged JSON object. -/
def StoredMessage.toJson (m : StoredMessage) : Json :=
  Json.obj m.fields

/-- Choosing the stored encoding for a general event: the tagging step
(storage always begins from a transport-shaped event that is then tagged;
this is not a semantic transformation, just the encoding choice). -/
def Message.toStored : Message → StoredMessage
  | Message.Identify i => StoredMessage.Identify i
  | Message.Track t => StoredMessage.Track t
  | Message.Page p => StoredMessage.Page p
  | Message.Screen s => StoredMessage.Screen s
  | Message.Group g => StoredMessage.Group g
  | Message.Alias a => StoredMessage.Alias a
  | Message.Batch b => StoredMessage.Batch b

/-- Escape one character as `serde_json` does inside a string literal. -/
def escapeChar (c : Char) : String :=
  if c = '"' then "\\\""
  else if c = '\\' then "\\\\"
  else if c = (Char.ofNat 8) then "\\b"
  else if c = (Char.ofNat 12) then "\\f"
  else if c = '\n' then "\\n"
  else if c = '\r' then "\\r"
  else if c = '\t' then "\\t"
  else if c.toNat < 32 then
    "\\u00" ++ String.mk [(Nat.digitChar (c.toNat / 16)), (Nat.digitChar (c.toNat % 16))]
  else String.mk [c]

/-- Render a JSON string literal. -/
def renderString (s : String) : String :=
  "\"" ++ String.join (s.data.map escapeChar) ++ "\""

mutual

/-- Compact rendering of a JSON value to its byte string, as
`serde_json::to_string` produces it. -/
def renderJson : Json → String
  | Json.null => "null"
  | Json.bool true => "true"
  | Json.bool false => "false"
  | Json.num n => toString n
  | Json.str s => renderString s
  | Json.arr elems => "[" ++ renderArr elems ++ "]"
  | Json.obj fields => "\x7b" ++ renderObj fields ++ "\x7d"

/-- Render array elements, comma separated. -/
def renderArr : List Json → String
  | [] => ""
  | [x] => renderJson x
  | x :: y :: rest => renderJson x ++ "," ++ renderArr (y :: rest)

/-- Render object fields, comma separated. -/
def renderObj : List (String × Json) → String
  | [] => ""
  | [(k, v)] => renderString k ++ ":" ++ renderJson v
  | (k, v) :: p :: rest =>
    renderString k ++ ":" ++ renderJson v ++ "," ++ renderObj (p :: rest)

end

/-- Transport encoding to bytes. -/
def encodeTransport (m : Message) : String :=
  renderJson m.toJson

/-- Stored encoding to bytes. -/
def encodeStored (m : StoredMessage) : String :=
  renderJson m.toJson

/-- The named (non-flattened) wire fields of `Identify`. -/
def identifyNames : List String := ["traits", "timestamp", "context", "integrations"]

/-- The named wire fields of `Track`. -/
def trackNames : List String :=
  ["event", "properties", "timestamp", "context", "integrations"]

/-- The named wire fields of `Page`. -/
def pageNames : List String :=
  ["name", "properties", "timestamp", "context", "integrations"]

/-- The named wire fields of `Screen`. -/
def screenNames : List String :=
  ["name", "properties", "timestamp", "context", "integrations"]

/-- The named wire fields of `Group`. -/
def groupNames : List String :=
  ["groupId", "traits", "timestamp", "context", "integrations"]

/-- The named wire fields of `Alias`. -/
def aliasNames : List String := ["previousId", "timestamp", "context", "integrations"]

/-- The named wire fields of `Batch`. -/
def batchNames : List String := ["batch", "context", "integrations"]

/-- A required `Value` field: present with any value, else a missing-field
error. -/
def getValue (k : String) (fs : List (String × Json)) : Except String Json :=
  match lookupField k fs with
  | some v => Except.ok v
  | none => Except.error ("missing field " ++ k)

/-- A required `String` field: present with a string value, else an error. -/
def getString (k : String) (fs : List (String × Json)) : Except String String :=
  match lookupField k fs with
  | some (Json.str s) => Except.ok s
  | some _ => Except.error ("invalid type for field " ++ k)
  | none => Except.error ("missing field " ++ k)

/-- The optional timestamp under `rfc3339::option`: absent or null is none,
a string parses (the model carries the RFC3339 rendering itself), anything
else is a type error. -/
def getOptTimestamp (fs : List (String × Json)) :
    Except String (Option OffsetDateTime) :=
  match lookupField "timestamp" fs with
  | none => Except.ok none
  | some Json.null => Except.ok none
  | some (Json.str s) => Except.ok (some ⟨s⟩)
  | some _ => Except.error "invalid type for field timestamp"

/-- An `Option<Value>` field: absent or null is none (the option
deserializer consumes the null), anything else is kept verbatim. -/
def getOptValue (k : String) (fs : List (String × Json)) : Option Json :=
  match lookupField k fs with
  | none => none
  | some v => if v = Json.null then none else some v

/-- An `Option<String>` field (the `Page` name): absent or null is none, a
string is some, anything else a type error. -/
def getOptString (k : String) (fs : List (String × Json)) :
    Except String (Option String) :=
  match lookupField k fs with
  | none => Except.ok none
  | some Json.null => Except.ok none
  | some (Json.str s) => Except.ok (some s)
  | some _ => Except.error ("invalid type for field " ++ k)

/-- Deserializing the flattened untagged `User` from the buffered leftover
fields. The variants are tried in declaration order — `UserId` first, then
`AnonymousId`, then `Both` — and the first structural match wins; unknown
fields never fail a variant. The read is non-destructive: a flattened
untagged enum deserializes through a non-consuming view of the flatten
buffer, so nothing is removed — the matched identity keys stay behind for
the flattened extra map to recapture. Because `UserId` accepts any object
carrying a string `userId`, the `Both` variant is unreachable on decode. -/
def decodeUserFlat (fs : List (String × Json)) : Except String User :=
  match lookupField "userId" fs with
  | some (Json.str u) => Except.ok (User.UserId u)
  | _ =>
    match lookupField "anonymousId" fs with
    | some (Json.str a) => Except.ok (User.AnonymousId a)
    | _ => Except.error "data did not match any variant of untagged enum User"

/-- Deserialize an `Identify` from object fields: named fields are captured
(duplicates are an error), the flattened user reads from the leftovers, and
the flattened extra map collects what remains. -/
def decodeIdentify (fs : List (String × Json)) : Except String Identify :=
  if noDupNamed identifyNames fs then do
    let traits ← getValue "traits" fs
    let timestamp ← getOptTimestamp fs
    let user ← decodeUserFlat (leftoverFields identifyNames fs)
    Except.ok ⟨user, traits, timestamp, getOptValue "context" fs,
      getOptValue "integrations" fs, mapOfList (leftoverFields identifyNames fs)⟩
  else Except.error "duplicate field"

/-- Deserialize a `Track` from object fields. -/
def decodeTrack (fs : List (String × Json)) : Except String Track :=
  if noDupNamed trackNames fs then do
    let event ← getString "event" fs
    let properties ← getValue "properties" fs
    let timestamp ← getOptTimestamp fs
    let user ← decodeUserFlat (leftoverFields trackNames fs)
    Except.ok ⟨user, event, properties, timestamp, getOptValue "context" fs,
      getOptValue "integrations" fs, mapOfList (leftoverFields trackNames fs)⟩
  else Except.error "duplicate field"

/-- Deserialize a `Page` from object fields. -/
def decodePage (fs : List (String × Json)) : Except String Page :=
  if noDupNamed pageNames fs then do
    let name ← getOptString "name" fs
    let properties ← getValue "properties" fs
    let timestamp ← getOptTimestamp fs
    let user ← decodeUserFlat (leftoverFields pageNames fs)
    Except.ok ⟨user, name, properties, timestamp, getOptValue "context" fs,
      getOptValue "integrations" fs, mapOfList (leftoverFields pageNames fs)⟩
  else Except.error "duplicate field"

/-- Deserialize a `Screen` from object fields. -/
def decodeScreen (fs : List (String × Json)) : Except String Screen :=
  if noDupNamed screenNames fs then do
    let name ← getString "name" fs
    let properties ← getValue "properties" fs
    let timestamp ← getOptTimestamp fs
    let user ← decodeUserFlat (leftoverFields screenNames fs)
    Except.ok ⟨user, name, properties, timestamp, getOptValue "context" fs,
      getOptValue "integrations" fs, mapOfList (leftoverFields screenNames fs)⟩
  else Except.error "duplicate field"

/-- Deserialize a `Group` from object fields. -/
def decodeGroup (fs : List (String × Json)) : Except String Group :=
  if noDupNamed groupNames fs then do
    let group_id ← getString "groupId" fs
    let traits ← getValue "traits" fs
    let timestamp ← getOptTimestamp fs
    let user ← decodeUserFlat (leftoverFields groupNames fs)
    Except.ok ⟨user, group_id, traits, timestamp, getOptValue "context" fs,
      getOptValue "integrations" fs, mapOfList (leftoverFields groupNames fs)⟩
  else Except.error "duplicate field"

/-- Deserialize an `Alias` from object fields. -/
def decodeAlias (fs : List (String × Json)) : Except String Alias :=
  if noDupNamed aliasNames fs then do
    let previous_id ← getString "previousId" fs
    let timestamp ← getOptTimestamp fs
    let user ← decodeUserFlat (leftoverFields aliasNames fs)
    Except.ok ⟨user, previous_id, timestamp, getOptValue "context" fs,
      getOptValue "integrations" fs, mapOfList (leftoverFields aliasNames fs)⟩
  else Except.error "duplicate field"

/-- Dispatch a tagged batch item on its discriminant (the six leaf kinds);
an unrecognized discriminant is a decode error naming it. -/
def decodeBatchTagged (t : String) (rest : List (String × Json)) :
    Except String BatchMessage :=
  if t = "identify" then BatchMessage.Identify <$> decodeIdentify rest
  else if t = "track" then BatchMessage.Track <$> decodeTrack rest
  else if t = "page" then BatchMessage.Page <$> decodePage rest
  else if t = "screen" then BatchMessage.Screen <$> decodeScreen rest
  else if t = "group" then BatchMessage.Group <$> decodeGroup rest
  else if t = "alias" then BatchMessage.Alias <$> decodeAlias rest
  else Except.error ("unknown variant " ++ t)

/-- Deserialize one batch item: an object carrying a string `type` tag. An
internally tagged record whose tag key occurs twice is rejected with a
duplicate-field error (the tagged-content reader errors on the second
occurrence of the tag). -/
def decodeBatchItem (j : Json) : Except String BatchMessage :=
  match j with
  | Json.obj fs =>
    match lookupField "type" fs with
    | some (Json.str t) =>
      if keyCount "type" fs ≤ 1 then decodeBatchTagged t (eraseFirstKey "type" fs)
      else Except.error "duplicate field type"
    | some _ => Except.error "invalid type for tag field type"
    | none => Except.error "missing field type"
  | _ => Except.error "invalid type: expected a map"

/-- Deserialize a list of batch items, failing on the first bad item. -/
def decodeItems : List Json → Except String (List BatchMessage)
  | [] => Except.ok []
  | j :: rest => do
    let m ← decodeBatchItem j
    let ms ← decodeItems rest
    Except.ok (m :: ms)

/-- Deserialize a `Batch` from object fields: the required item array,
optional context / integrations, flattened extra map. -/
def decodeBatch (fs : List (String × Json)) : Except String Batch :=
  if noDupNamed batchNames fs then do
    let b ← getValue "batch" fs
    match b with
    | Json.arr elems => do
      let items ← decodeItems elems
      Except.ok ⟨items, getOptValue "context" fs, getOptValue "integrations" fs,
        mapOfList (leftoverFields batchNames fs)⟩
    | _ => Except.error "invalid type for field batch"
  else Except.error "duplicate field"

/-- Dispatch a stored record on its discriminant (the seven kinds); an
unrecognized discriminant is a decode error naming it. -/
def decodeStoredTagged (t : String) (rest : List (String × Json)) :
    Except String StoredMessage :=
  if t = "identify" then StoredMessage.Identify <$> decodeIdentify rest
  else if t = "track" then StoredMessage.Track <$> decodeTrack rest
  else if t = "page" then StoredMessage.Page <$> decodePage rest
  else if t = "screen" then StoredMessage.Screen <$> decodeScreen rest
  else if t = "group" then StoredMessage.Group <$> decodeGroup rest
  else if t = "alias" then StoredMessage.Alias <$> decodeAlias rest
  else if t = "batch" then StoredMessage.Batch <$> decodeBatch rest
  else Except.error ("unknown variant " ++ t)

/-- Decode stored bytes (at the JSON level): the record must be an object
whose `type` field is a known discriminant string occurring once — the
internally tagged reader errors with a duplicate-field error when the tag
key occurs twice. -/
def decodeStoredMessage (j : Json) : Except String StoredMessage :=
  match j with
  | Json.obj fs =>
    match lookupField "type" fs with
    | some (Json.str t) =>
      if keyCount "type" fs ≤ 1 then decodeStoredTagged t (eraseFirstKey "type" fs)
      else Except.error "duplicate field type"
    | some _ => Except.error "invalid type for tag field type"
    | none => Except.error "missing field type"
  | _ => Except.error "invalid type: expected a map"

/-- The `BatchMessage::timestamp_mut` accessor (`src/message.rs`), read view: the
timestamp field of whichever leaf the item is. -/
def BatchMessage.timestamp : BatchMessage → Option OffsetDateTime
  | BatchMessage.Identify i => i.timestamp
  | BatchMessage.Track t => t.timestamp
  | BatchMessage.Page p => p.timestamp
  | BatchMessage.Screen s => s.timestamp
  | BatchMessage.Group g => g.timestamp
  | BatchMessage.Alias a => a.timestamp

/-- The `BatchMessage::timestamp_mut` accessor, write view: storing through the returned
mutable reference. -/
def BatchMessage.withTimestamp : BatchMessage → Option OffsetDateTime → BatchMessage
  | BatchMessage.Identify i, ts => BatchMessage.Identify { i with timestamp := ts }
  | BatchMessage.Track t, ts => BatchMessage.Track { t with timestamp := ts }
  | BatchMessage.Page p, ts => BatchMessage.Page { p with timestamp := ts }
  | BatchMessage.Screen s, ts => BatchMessage.Screen { s with timestamp := ts }
  | BatchMessage.Group g, ts => BatchMessage.Group { g with timestamp := ts }
  | BatchMessage.Alias a, ts => BatchMessage.Alias { a with timestamp := ts }

/-- Modelled from the spec: the batch-finalization pass (the caller of
`BatchMessage::timestamp_mut` that backfills timestamps before encoding is
not part of this module; only the accessor is). Each item missing a
timestamp receives the current time read at finalize time; items that
already carry one are left alone. -/
def finalizeBatch (now : OffsetDateTime) (items : List BatchMessage) :
    List BatchMessage :=
  items.map fun m =>
    match m.timestamp with
    | some _ => m
    | none => m.withTimestamp (some now)

/-- The extra map of a message, whichever variant it is. -/
def Message.extraOf : Message → List (String × Json)
  | Message.Identify i => i.extra
  | Message.Track t => t.extra
  | Message.Page p => p.extra
  | Message.Screen s => s.extra
  | Message.Group g => g.extra
  | Message.Alias a => a.extra
  | Message.Batch b => b.extra

/-- The timestamp of a message (a batch has none of its own). -/
def Message.timestampOf : Message → Option OffsetDateTime
  | Message.Identify i => i.timestamp
  | Message.Track t => t.timestamp
  | Message.Page p => p.timestamp
  | Message.Screen s => s.timestamp
  | Message.Group g => g.timestamp
  | Message.Alias a => a.timestamp
  | Message.Batch _ => none

/-- The context of a message. -/
def Message.contextOf : Message → Option Json
  | Message.Identify i => i.context
  | Message.Track t => t.context
  | Message.Page p => p.context
  | Message.Screen s => s.context
  | Message.Group g => g.context
  | Message.Alias a => a.context
  | Message.Batch b => b.context

/-- The integrations of a message. -/
def Message.integrationsOf : Message → Option Json
  | Message.Identify i => i.integrations
  | Message.Track t => t.integrations
  | Message.Page p => p.integrations
  | Message.Screen s => s.integrations
  | Message.Group g => g.integrations
  | Message.Alias a => a.integrations
  | Message.Batch b => b.integrations

/-- A well-behaved extra map: none of its keys collides with a reserved
wire key. -/
def extraOk (reserved : List String) (extra : List (String × Json)) : Prop :=
  ∀ p ∈ extra, p.1 ∉ reserved

/-- Wire keys an `Identify` extra map must avoid for a well-defined stored
round trip: the discriminant, the flattened identity keys and the named
fields. -/
def identifyReserved : List String :=
  ["type", "userId", "anonymousId"] ++ identifyNames

/-- Wire keys a `Track` extra map must avoid. -/
def trackReserved : List String :=
  ["type", "userId", "anonymousId"] ++ trackNames

/-- Wire keys a `Page` extra map must avoid. -/
def pageReserved : List String :=
  ["type", "userId", "anonymousId"] ++ pageNames

/-- Wire keys a `Screen` extra map must avoid. -/
def screenReserved : List String :=
  ["type", "userId", "anonymousId"] ++ screenNames

/-- Wire keys a `Group` extra map must avoid. -/
def groupReserved : List String :=
  ["type", "userId", "anonymousId"] ++ groupNames

/-- Wire keys an `Alias` extra map must avoid. -/
def aliasReserved : List String :=
  ["type", "userId", "anonymousId"] ++ aliasNames

/-- Wire keys a `Batch` extra map must avoid. -/
def batchReserved : List String := "type" :: batchNames

/-- The conditions under which the stored round trip of an `Identify` is
characterized by `Identify.decodeImage`: the extra map avoids the reserved
wire keys, and context / integrations are not explicit nulls (an explicit
null decodes to an absent option). -/
def IdentifyOk (i : Identify) : Prop :=
  extraOk identifyReserved i.extra ∧
    i.context ≠ some Json.null ∧ i.integrations ≠ some Json.null

/-- Round-trip conditions for a `Track`. -/
def TrackOk (t : Track) : Prop :=
  extraOk trackReserved t.extra ∧
    t.context ≠ some Json.null ∧ t.integrations ≠ some Json.null

/-- Round-trip conditions for a `Page`. -/
def PageOk (p : Page) : Prop :=
  extraOk pageReserved p.extra ∧
    p.context ≠ some Json.null ∧ p.integrations ≠ some Json.null

/-- Round-trip conditions for a `Screen`. -/
def ScreenOk (s : Screen) : Prop :=
  extraOk screenReserved s.extra ∧
    s.context ≠ some Json.null ∧ s.integrations ≠ some Json.null

/-- Round-trip conditions for a `Group`. -/
def GroupOk (g : Group) : Prop :=
  extraOk groupReserved g.extra ∧
    g.context ≠ some Json.null ∧ g.integrations ≠ some Json.null

/-- Round-trip conditions for an `Alias`. -/
def AliasOk (a : Alias) : Prop :=
  extraOk aliasReserved a.extra ∧
    a.context ≠ some Json.null ∧ a.integrations ≠ some Json.null

/-- Round-trip conditions for one batch item. -/
def BatchMessageOk : BatchMessage → Prop
  | BatchMessage.Identify i => IdentifyOk i
  | BatchMessage.Track t => TrackOk t
  | BatchMessage.Page p => PageOk p
  | BatchMessage.Screen s => ScreenOk s
  | BatchMessage.Group g => GroupOk g
  | BatchMessage.Alias a => AliasOk a

/-- Round-trip conditions for a `Batch`: every item is well behaved, and
the batch-level extra / context / integrations are as for the leaves. -/
def BatchOk (b : Batch) : Prop :=
  (∀ m ∈ b.batch, BatchMessageOk m) ∧ extraOk batchReserved b.extra ∧
    b.context ≠ some Json.null ∧ b.integrations ≠ some Json.null

/-- Round-trip conditions for a `Message`, variant by variant. -/
def MessageOk : Message → Prop
  | Message.Identify i => IdentifyOk i
  | Message.Track t => TrackOk t
  | Message.Page p => PageOk p
  | Message.Screen s => ScreenOk s
  | Message.Group g => GroupOk g
  | Message.Alias a => AliasOk a
  | Message.Batch b => BatchOk b

/-- What the untagged identity decoder reconstructs from the identity's
own wire fields: `UserId` is tried first, so an identity carrying both ids
comes back as `UserId`; the other shapes survive. -/
def User.decodeImage : User → User
  | User.Both u _ => User.UserId u
  | u => u

/-- The value an `Identify` becomes after the stored round trip: every
named field survives, the user is relabeled through `User.decodeImage`,
and the extra map additionally captures the identity's wire fields
(the flattened untagged user reads the flatten buffer without consuming,
so the flattened extra map recollects those keys). -/
def Identify.decodeImage (i : Identify) : Identify :=
  { i with user := i.user.decodeImage,
           extra := mapOfList (serializeUser i.user ++ i.extra) }

/-- The stored round-trip image of a `Track`. -/
def Track.decodeImage (t : Track) : Track :=
  { t with user := t.user.decodeImage,
           extra := mapOfList (serializeUser t.user ++ t.extra) }

/-- The stored round-trip image of a `Page`. -/
def Page.decodeImage (p : Page) : Page :=
  { p with user := p.user.decodeImage,
           extra := mapOfList (serializeUser p.user ++ p.extra) }

/-- The stored round-trip image of a `Screen`. -/
def Screen.decodeImage (s : Screen) : Screen :=
  { s with user := s.user.decodeImage,
           extra := mapOfList (serializeUser s.user ++ s.extra) }

/-- The stored round-trip image of a `Group`. -/
def Group.decodeImage (g : Group) : Group :=
  { g with user := g.user.decodeImage,
           extra := mapOfList (serializeUser g.user ++ g.extra) }

/-- The stored round-trip image of an `Alias`. -/
def Alias.decodeImage (a : Alias) : Alias :=
  { a with user := a.user.decodeImage,
           extra := mapOfList (serializeUser a.user ++ a.extra) }

/-- The stored round-trip image of one batch item. -/
def BatchMessage.decodeImage : BatchMessage → BatchMessage
  | BatchMessage.Identify i => BatchMessage.Identify i.decodeImage
  | BatchMessage.Track t => BatchMessage.Track t.decodeImage
  | BatchMessage.Page p => BatchMessage.Page p.decodeImage
  | BatchMessage.Screen s => BatchMessage.Screen s.decodeImage
  | BatchMessage.Group g => BatchMessage.Group g.decodeImage
  | BatchMessage.Alias a => BatchMessage.Alias a.decodeImage

/-- The stored round-trip image of a `Batch`: each item is taken to its
image, and the batch-level extra map is recollected (the batch has no
flattened identity of its own). -/
def Batch.decodeImage (b : Batch) : Batch :=
  { b with batch := b.batch.map BatchMessage.decodeImage,
           extra := mapOfList b.extra }

/-- The stored round-trip image of a `Message`. -/
def Message.decodeImage : Message → Message
  | Message.Identify i => Message.Identify i.decodeImage
  | Message.Track t => Message.Track t.decodeImage
  | Message.Page p => Message.Page p.decodeImage
  | Message.Screen s => Message.Screen s.decodeImage
  | Message.Group g => Message.Group g.decodeImage
  | Message.Alias a => Message.Alias a.decodeImage
  | Message.Batch b => Message.Batch b.decodeImage

/-- The concrete round-trip counterexample: an identify whose user carries
both ids. -/
def identifyBothIds : Identify :=
  ⟨User.Both "u" "a", Json.null, none, none, none, []⟩

/-- A track constructed with an extra key that collides with the named
`event` field: nothing in the construction API rejects it. -/
def trackEventExtra : Track :=
  ⟨User.UserId "u", "e", Json.obj [], none, none, none, [("event", Json.str "x")]⟩

/-- A track constructed with an extra key `type`. -/
def trackTypeExtra : Track :=
  ⟨User.UserId "u", "e", Json.obj [], none, none, none, [("type", Json.str "track")]⟩

/-- An alias with no timestamp but an extra binding for the key
`timestamp`. -/
def aliasTimestampExtra : Alias :=
  ⟨User.UserId "foo", "bar", none, none, none, [("timestamp", Json.str "2020-01-01T00:00:00Z")]⟩

/-- A concrete round-trip witness message. -/
def witnessTrack : Track :=
  ⟨User.AnonymousId "foo", "Foo", Json.obj [("baz", Json.str "quux")],
    some ⟨"2023-01-01T00:00:00Z"⟩, some (Json.obj [("ip", Json.str "127.0.0.1")]),
    none, [("messageId", Json.str "123")]⟩

/-- A concrete batch witness message. -/
def witnessBatch : Batch :=
  ⟨[BatchMessage.Track witnessTrack,
    BatchMessage.Alias ⟨User.UserId "foo", "bar", none, none, none, []⟩],
    some (Json.obj [("foo", Json.str "bar")]), none, []⟩

/-- The clock reading used by the finalize witness. -/
def witnessNow : OffsetDateTime := ⟨"2024-01-01T00:00:00Z"⟩

/-- A one-item batch whose item lacks a timestamp, for the finalize
witness. -/
def witnessItems : List BatchMessage :=
  [BatchMessage.Alias ⟨User.UserId "u", "p", none, none, none, []⟩]

instance (r : List String) (e : List (String × Json)) :
    Decidable (extraOk r e) := by
  unfold extraOk; infer_instance

instance (i : Identify) : Decidable (IdentifyOk i) := by
  unfold IdentifyOk; infer_instance

instance (t : Track) : Decidable (TrackOk t) := by
  unfold TrackOk; infer_instance

instance (p : Page) : Decidable (PageOk p) := by
  unfold PageOk; infer_instance

instance (s : Screen) : Decidable (ScreenOk s) := by
  unfold ScreenOk; infer_instance

instance (g : Group) : Decidable (GroupOk g) := by
  unfold GroupOk; infer_instance

instance (a : Alias) : Decidable (AliasOk a) := by
  unfold AliasOk; infer_instance

instance : (m : BatchMessage) → Decidable (BatchMessageOk m)
  | BatchMessage.Identify _ => by unfold BatchMessageOk; infer_instance
  | BatchMessage.Track _ => by unfold BatchMessageOk; infer_instance
  | BatchMessage.Page _ => by unfold BatchMessageOk; infer_instance
  | BatchMessage.Screen _ => by unfold BatchMessageOk; infer_instance
  | BatchMessage.Group _ => by unfold BatchMessageOk; infer_instance
  | BatchMessage.Alias _ => by unfold BatchMessageOk; infer_instance

instance (b : Batch) : Decidable (BatchOk b) := by
  unfold BatchOk; infer_instance

instance : (m : Message) → Decidable (MessageOk m)
  | Message.Identify _ => by unfold MessageOk; infer_instance
  | Message.Track _ => by unfold MessageOk; infer_instance
  | Message.Page _ => by unfold MessageOk; infer_instance
  | Message.Screen _ => by unfold MessageOk; infer_instance
  | Message.Group _ => by unfold MessageOk; infer_instance
  | Message.Alias _ => by unfold MessageOk; infer_instance
  | Message.Batch _ => by unfold MessageOk; infer_instance

theorem keyCount_nil (k : String) : keyCount k [] = 0 := rfl

theorem keyCount_cons (k k' : String) (v : Json) (fs : List (String × Json)) :
    keyCount k ((k', v) :: fs) = (if k' = k then 1 else 0) + keyCount k fs := by
  by_cases h : k' = k <;> simp [keyCount, h, Nat.add_comm]

theorem keyCount_append (k : String) (xs ys : List (String × Json)) :
    keyCount k (xs ++ ys) = keyCount k xs + keyCount k ys := by
  simp [keyCount, List.filter_append]

theorem keyCount_eq_zero (k : String) (fs : List (String × Json))
    (h : ∀ p ∈ fs, p.1 ≠ k) : keyCount k fs = 0 := by
  induction fs with
  | nil => rfl
  | cons p rest ih =>
    obtain ⟨k', v'⟩ := p
    rw [keyCount_cons, if_neg (h (k', v') (List.mem_cons_self _ rest)),
      ih (fun q hq => h q (List.mem_cons_of_mem _ hq))]

theorem lookupField_eq_none (k : String) (fs : List (String × Json))
    (h : ∀ p ∈ fs, p.1 ≠ k) : lookupField k fs = none := by
  induction fs with
  | nil => rfl
  | cons p rest ih =>
    obtain ⟨k', v'⟩ := p
    rw [lookupField, if_neg (h (k', v') (List.mem_cons_self _ rest))]
    exact ih (fun q hq => h q (List.mem_cons_of_mem _ hq))

theorem lookupField_append_none (k : String) (xs ys : List (String × Json))
    (h : lookupField k xs = none) :
    lookupField k (xs ++ ys) = lookupField k ys := by
  induction xs with
  | nil => rfl
  | cons p rest ih =>
    obtain ⟨k', v'⟩ := p
    rw [lookupField] at h
    by_cases hk : k' = k
    · rw [if_pos hk] at h; exact Option.noConfusion h
    · rw [if_neg hk] at h
      rw [List.cons_append, lookupField, if_neg hk]
      exact ih h

theorem lookupField_append_some (k : String) (xs ys : List (String × Json))
    (v : Json) (h : lookupField k xs = some v) :
    lookupField k (xs ++ ys) = some v := by
  induction xs with
  | nil => exact Option.noConfusion h
  | cons p rest ih =>
    obtain ⟨k', v'⟩ := p
    rw [lookupField] at h
    rw [List.cons_append, lookupField]
    by_cases hk : k' = k
    · rw [if_pos hk] at h ⊢; exact h
    · rw [if_neg hk] at h ⊢; exact ih h

theorem leftoverFields_of_not_mem (names : List String)
    (fs : List (String × Json)) (h : ∀ p ∈ fs, p.1 ∉ names) :
    leftoverFields names fs = fs := by
  induction fs with
  | nil => rfl
  | cons p rest ih =>
    obtain ⟨k, v⟩ := p
    have hm : k ∉ names := h (k, v) (List.mem_cons_self _ rest)
    rw [leftoverFields, if_neg hm,
      ih (fun q hq => h q (List.mem_cons_of_mem _ hq))]

theorem mapInsert_snoc (k : String) (v : Json) (fs : List (String × Json))
    (h : ∀ p ∈ fs, p.1 < k) : mapInsert k v fs = fs ++ [(k, v)] := by
  induction fs with
  | nil => rfl
  | cons p rest ih =>
    obtain ⟨k', v'⟩ := p
    have hp : k' < k := h (k', v') (List.mem_cons_self _ rest)
    rw [mapInsert, if_neg (lt_asymm hp), if_neg (ne_of_gt hp),
      ih (fun q hq => h q (List.mem_cons_of_mem _ hq))]
    rfl

theorem mapOfList_sorted (fs : List (String × Json))
    (h : fs.Pairwise (fun p q => p.1 < q.1)) : mapOfList fs = fs := by
  induction fs using List.reverseRecOn with
  | nil => rfl
  | append_singleton xs x ih =>
    rw [List.pairwise_append] at h
    rw [mapOfList, List.foldl_append]
    rw [show List.foldl (fun m kv => mapInsert kv.1 kv.2 m) [] xs = mapOfList xs
      from rfl]
    rw [ih h.1, List.foldl_cons, List.foldl_nil]
    exact mapInsert_snoc x.1 x.2 xs
      (fun p hp => h.2.2 p hp x (List.mem_singleton_self x))

theorem BatchMessage.timestamp_withTimestamp (m : BatchMessage)
    (ts : Option OffsetDateTime) : (m.withTimestamp ts).timestamp = ts := by
  cases m <;> rfl

theorem leftoverFields_nil (names : List String) :
    leftoverFields names [] = [] := rfl

theorem leftoverFields_cons_mem (names : List String) (k : String) (v : Json)
    (fs : List (String × Json)) (h : k ∈ names) :
    leftoverFields names ((k, v) :: fs) = leftoverFields names fs := by
  rw [leftoverFields, if_pos h]

theorem leftoverFields_cons_not_mem (names : List String) (k : String)
    (v : Json) (fs : List (String × Json)) (h : k ∉ names) :
    leftoverFields names ((k, v) :: fs) = (k, v) :: leftoverFields names fs := by
  rw [leftoverFields, if_neg h]

theorem lookupField_reserved (reserved : List String)
    (extra : List (String × Json)) (hres : ∀ p ∈ extra, p.1 ∉ reserved)
    (n : String) (hn : n ∈ reserved) : lookupField n extra = none :=
  lookupField_eq_none n extra (fun p hp e => hres p hp (e ▸ hn))

theorem keyCount_reserved (reserved : List String)
    (extra : List (String × Json)) (hres : ∀ p ∈ extra, p.1 ∉ reserved)
    (n : String) (hn : n ∈ reserved) : keyCount n extra = 0 :=
  keyCount_eq_zero n extra (fun p hp e => hres p hp (e ▸ hn))

theorem leftoverFields_reserved (reserved names : List String)
    (extra : List (String × Json)) (hres : ∀ p ∈ extra, p.1 ∉ reserved)
    (hsub : ∀ n ∈ names, n ∈ reserved) :
    leftoverFields names extra = extra :=
  leftoverFields_of_not_mem names extra
    (fun p hp hc => hres p hp (hsub p.1 hc))

theorem finalizeBatch_timestamps (now : OffsetDateTime)
    (items : List BatchMessage) (i : Nat) (m : BatchMessage)
    (h : (finalizeBatch now items)[i]? = some m) :
    ∃ m₀, items[i]? = some m₀ ∧ m.timestamp = some (m₀.timestamp.getD now) := by
  rw [finalizeBatch, List.getElem?_map] at h
  cases h₀ : items[i]? with
  | none => rw [h₀] at h; exact Option.noConfusion h
  | some m₀ =>
    refine ⟨m₀, rfl, ?_⟩
    rw [h₀] at h
    simp only [Option.map] at h
    injection h with h
    cases hts : m₀.timestamp with
    | some t =>
      rw [← h]
      simp [hts]
    | none =>
      rw [← h]
      simp [hts, BatchMessage.timestamp_withTimestamp]

theorem except_bind_ok {e a b : Type} (x : a) (f : a → Except e b) :
    (Except.ok x >>= f : Except e b) = f x := rfl

theorem decodeIdentify_roundTrip (x0 : Identify) (h : IdentifyOk x0) :
    decodeIdentify x0.fields = Except.ok x0.decodeImage := by
  obtain ⟨u, tr, ts, ctx, intg, extra⟩ := x0
  obtain ⟨hres, hctx, hint⟩ := h
  have hlo : leftoverFields ["traits", "timestamp", "context", "integrations"] extra = extra :=
    leftoverFields_reserved identifyReserved _ extra hres (by decide)
  have lk0 : lookupField "traits" extra = none :=
    lookupField_reserved identifyReserved extra hres _ (by decide)
  have lk1 : lookupField "timestamp" extra = none :=
    lookupField_reserved identifyReserved extra hres _ (by decide)
  have lk2 : lookupField "context" extra = none :=
    lookupField_reserved identifyReserved extra hres _ (by decide)
  have lk3 : lookupField "integrations" extra = none :=
    lookupField_reserved identifyReserved extra hres _ (by decide)
  have lk4 : lookupField "userId" extra = none :=
    lookupField_reserved identifyReserved extra hres _ (by decide)
  have lk5 : lookupField "anonymousId" extra = none :=
    lookupField_reserved identifyReserved extra hres _ (by decide)
  have kc0 : keyCount "traits" extra = 0 :=
    keyCount_reserved identifyReserved extra hres _ (by decide)
  have kc1 : keyCount "timestamp" extra = 0 :=
    keyCount_reserved identifyReserved extra hres _ (by decide)
  have kc2 : keyCount "context" extra = 0 :=
    keyCount_reserved identifyReserved extra hres _ (by decide)
  have kc3 : keyCount "integrations" extra = 0 :=
    keyCount_reserved identifyReserved extra hres _ (by decide)
  rcases u with xid | aid | ⟨xid, aid⟩ <;> rcases ts with _ | ⟨tss⟩ <;>
    rcases ctx with _ | v <;> rcases intg with _ | w
  all_goals try have hv : v ≠ Json.null := fun e => hctx (by rw [e])
  all_goals try have hw : w ≠ Json.null := fun e => hint (by rw [e])
  all_goals first
    | simp [decodeIdentify, Identify.fields, Identify.decodeImage,
        User.decodeImage, serializeUser, timestampField, optField,
        optStringJson, identifyNames, noDupNamed, keyCount_cons,
        keyCount_append, keyCount_nil, lookupField, leftoverFields_cons_mem,
        leftoverFields_cons_not_mem, decodeUserFlat, getValue, getString,
        getOptTimestamp, getOptValue, getOptString, except_bind_ok,
        hlo, lk0, lk1, lk2, lk3, lk4, lk5, kc0, kc1, kc2, kc3, hv, hw]
    | simp [decodeIdentify, Identify.fields, Identify.decodeImage,
        User.decodeImage, serializeUser, timestampField, optField,
        optStringJson, identifyNames, noDupNamed, keyCount_cons,
        keyCount_append, keyCount_nil, lookupField, leftoverFields_cons_mem,
        leftoverFields_cons_not_mem, decodeUserFlat, getValue, getString,
        getOptTimestamp, getOptValue, getOptString, except_bind_ok,
        hlo, lk0, lk1, lk2, lk3, lk4, lk5, kc0, kc1, kc2, kc3, hv]
    | simp [decodeIdentify, Identify.fields, Identify.decodeImage,
        User.decodeImage, serializeUser, timestampField, optField,
        optStringJson, identifyNames, noDupNamed, keyCount_cons,
        keyCount_append, keyCount_nil, lookupField, leftoverFields_cons_mem,
        leftoverFields_cons_not_mem, decodeUserFlat, getValue, getString,
        getOptTimestamp, getOptValue, getOptString, except_bind_ok,
        hlo, lk0, lk1, lk2, lk3, lk4, lk5, kc0, kc1, kc2, kc3, hw]
    | simp [decodeIdentify, Identify.fields, Identify.decodeImage,
        User.decodeImage, serializeUser, timestampField, optField,
        optStringJson, identifyNames, noDupNamed, keyCount_cons,
        keyCount_append, keyCount_nil, lookupField, leftoverFields_cons_mem,
        leftoverFields_cons_not_mem, decodeUserFlat, getValue, getString,
        getOptTimestamp, getOptValue, getOptString, except_bind_ok,
        hlo, lk0, lk1, lk2, lk3, lk4, lk5, kc0, kc1, kc2, kc3]

theorem identify_fields_type_count (x0 : Identify)
    (hres : ∀ p ∈ x0.extra, p.1 ∉ identifyReserved) :
    keyCount "type" x0.fields = 0 := by
  obtain ⟨u, tr, ts, ctx, intg, extra⟩ := x0
  have kt : keyCount "type" extra = 0 :=
    keyCount_reserved identifyReserved extra hres _ (by decide)
  rcases u with xid | aid | ⟨xid, aid⟩ <;> rcases ts with _ | ⟨tss⟩ <;>
    rcases ctx with _ | v <;> rcases intg with _ | w <;>
    simp [Identify.fields, serializeUser, timestampField, optField,
      optStringJson, keyCount_cons, keyCount_append, keyCount_nil, kt]

theorem decodeTrack_roundTrip (x0 : Track) (h : TrackOk x0) :
    decodeTrack x0.fields = Except.ok x0.decodeImage := by
  obtain ⟨u, event, properties, ts, ctx, intg, extra⟩ := x0
  obtain ⟨hres, hctx, hint⟩ := h
  have hlo : leftoverFields ["event", "properties", "timestamp", "context", "integrations"] extra = extra :=
    leftoverFields_reserved trackReserved _ extra hres (by decide)
  have lk0 : lookupField "event" extra = none :=
    lookupField_reserved trackReserved extra hres _ (by decide)
  have lk1 : lookupField "properties" extra = none :=
    lookupField_reserved trackReserved extra hres _ (by decide)
  have lk2 : lookupField "timestamp" extra = none :=
    lookupField_reserved trackReserved extra hres _ (by decide)
  have lk3 : lookupField "context" extra = none :=
    lookupField_reserved trackReserved extra hres _ (by decide)
  have lk4 : lookupField "integrations" extra = none :=
    lookupField_reserved trackReserved extra hres _ (by decide)
  have lk5 : lookupField "userId" extra = none :=
    lookupField_reserved trackReserved extra hres _ (by decide)
  have lk6 : lookupField "anonymousId" extra = none :=
    lookupField_reserved trackReserved extra hres _ (by decide)
  have kc0 : keyCount "event" extra = 0 :=
    keyCount_reserved trackReserved extra hres _ (by decide)
  have kc1 : keyCount "properties" extra = 0 :=
    keyCount_reserved trackReserved extra hres _ (by decide)
  have kc2 : keyCount "timestamp" extra = 0 :=
    keyCount_reserved trackReserved extra hres _ (by decide)
  have kc3 : keyCount "context" extra = 0 :=
    keyCount_reserved trackReserved extra hres _ (by decide)
  have kc4 : keyCount "integrations" extra = 0 :=
    keyCount_reserved trackReserved extra hres _ (by decide)
  rcases u with xid | aid | ⟨xid, aid⟩ <;> rcases ts with _ | ⟨tss⟩ <;>
    rcases ctx with _ | v <;> rcases intg with _ | w
  all_goals try have hv : v ≠ Json.null := fun e => hctx (by rw [e])
  all_goals try have hw : w ≠ Json.null := fun e => hint (by rw [e])
  all_goals first
    | simp [decodeTrack, Track.fields, Track.decodeImage,
        User.decodeImage, serializeUser, timestampField, optField,
        optStringJson, trackNames, noDupNamed, keyCount_cons,
        keyCount_append, keyCount_nil, lookupField, leftoverFields_cons_mem,
        leftoverFields_cons_not_mem, decodeUserFlat, getValue, getString,
        getOptTimestamp, getOptValue, getOptString, except_bind_ok,
        hlo, lk0, lk1, lk2, lk3, lk4, lk5, lk6, kc0, kc1, kc2, kc3, kc4, hv, hw]
    | simp [decodeTrack, Track.fields, Track.decodeImage,
        User.decodeImage, serializeUser, timestampField, optField,
        optStringJson, trackNames, noDupNamed, keyCount_cons,
        keyCount_append, keyCount_nil, lookupField, leftoverFields_cons_mem,
        leftoverFields_cons_not_mem, decodeUserFlat, getValue, getString,
        getOptTimestamp, getOptValue, getOptString, except_bind_ok,
        hlo, lk0, lk1, lk2, lk3, lk4, lk5, lk6, kc0, kc1, kc2, kc3, kc4, hv]
    | simp [decodeTrack, Track.fields, Track.decodeImage,
        User.decodeImage, serializeUser, timestampField, optField,
        optStringJson, trackNames, noDupNamed, keyCount_cons,
        keyCount_append, keyCount_nil, lookupField, leftoverFields_cons_mem,
        leftoverFields_cons_not_mem, decodeUserFlat, getValue, getString,
        getOptTimestamp, getOptValue, getOptString, except_bind_ok,
        hlo, lk0, lk1, lk2, lk3, lk4, lk5, lk6, kc0, kc1, kc2, kc3, kc4, hw]
    | simp [decodeTrack, Track.fields, Track.decodeImage,
        User.decodeImage, serializeUser, timestampField, optField,
        optStringJson, trackNames, noDupNamed, keyCount_cons,
        keyCount_append, keyCount_nil, lookupField, leftoverFields_cons_mem,
        leftoverFields_cons_not_mem, decodeUserFlat, getValue, getString,
        getOptTimestamp, getOptValue, getOptString, except_bind_ok,
        hlo, lk0, lk1, lk2, lk3, lk4, lk5, lk6, kc0, kc1, kc2, kc3, kc4]

theorem track_fields_type_count (x0 : Track)
    (hres : ∀ p ∈ x0.extra, p.1 ∉ trackReserved) :
    keyCount "type" x0.fields = 0 := by
  obtain ⟨u, event, properties, ts, ctx, intg, extra⟩ := x0
  have kt : keyCount "type" extra = 0 :=
    keyCount_reserved trackReserved extra hres _ (by decide)
  rcases u with xid | aid | ⟨xid, aid⟩ <;> rcases ts with _ | ⟨tss⟩ <;>
    rcases ctx with _ | v <;> rcases intg with _ | w <;>
    simp [Track.fields, serializeUser, timestampField, optField,
      optStringJson, keyCount_cons, keyCount_append, keyCount_nil, kt]

theorem decodePage_roundTrip (x0 : Page) (h : PageOk x0) :
    decodePage x0.fields = Except.ok x0.decodeImage := by
  obtain ⟨u, name, properties, ts, ctx, intg, extra⟩ := x0
  obtain ⟨hres, hctx, hint⟩ := h
  have hlo : leftoverFields ["name", "properties", "timestamp", "context", "integrations"] extra = extra :=
    leftoverFields_reserved pageReserved _ extra hres (by decide)
  have lk0 : lookupField "name" extra = none :=
    lookupField_reserved pageReserved extra hres _ (by decide)
  have lk1 : lookupField "properties" extra = none :=
    lookupField_reserved pageReserved extra hres _ (by decide)
  have lk2 : lookupField "timestamp" extra = none :=
    lookupField_reserved pageReserved extra hres _ (by decide)
  have lk3 : lookupField "context" extra = none :=
    lookupField_reserved pageReserved extra hres _ (by decide)
  have lk4 : lookupField "integrations" extra = none :=
    lookupField_reserved pageReserved extra hres _ (by decide)
  have lk5 : lookupField "userId" extra = none :=
    lookupField_reserved pageReserved extra hres _ (by decide)
  have lk6 : lookupField "anonymousId" extra = none :=
    lookupField_reserved pageReserved extra hres _ (by decide)
  have kc0 : keyCount "name" extra = 0 :=
    keyCount_reserved pageReserved extra hres _ (by decide)
  have kc1 : keyCount "properties" extra = 0 :=
    keyCount_reserved pageReserved extra hres _ (by decide)
  have kc2 : keyCount "timestamp" extra = 0 :=
    keyCount_reserved pageReserved extra hres _ (by decide)
  have kc3 : keyCount "context" extra = 0 :=
    keyCount_reserved pageReserved extra hres _ (by decide)
  have kc4 : keyCount "integrations" extra = 0 :=
    keyCount_reserved pageReserved extra hres _ (by decide)
  rcases u with xid | aid | ⟨xid, aid⟩ <;> rcases ts with _ | ⟨tss⟩ <;>
    rcases ctx with _ | v <;> rcases intg with _ | w <;>
    rcases name with _ | pn
  all_goals try have hv : v ≠ Json.null := fun e => hctx (by rw [e])
  all_goals try have hw : w ≠ Json.null := fun e => hint (by rw [e])
  all_goals first
    | simp [decodePage, Page.fields, Page.decodeImage,
        User.decodeImage, serializeUser, timestampField, optField,
        optStringJson, pageNames, noDupNamed, keyCount_cons,
        keyCount_append, keyCount_nil, lookupField, leftoverFields_cons_mem,
        leftoverFields_cons_not_mem, decodeUserFlat, getValue, getString,
        getOptTimestamp, getOptValue, getOptString, except_bind_ok,
        hlo, lk0, lk1, lk2, lk3, lk4, lk5, lk6, kc0, kc1, kc2, kc3, kc4, hv, hw]
    | simp [decodePage, Page.fields, Page.decodeImage,
        User.decodeImage, serializeUser, timestampField, optField,
        optStringJson, pageNames, noDupNamed, keyCount_cons,
        keyCount_append, keyCount_nil, lookupField, leftoverFields_cons_mem,
        leftoverFields_cons_not_mem, decodeUserFlat, getValue, getString,
        getOptTimestamp, getOptValue, getOptString, except_bind_ok,
        hlo, lk0, lk1, lk2, lk3, lk4, lk5, lk6, kc0, kc1, kc2, kc3, kc4, hv]
    | simp [decodePage, Page.fields, Page.decodeImage,
        User.decodeImage, serializeUser, timestampField, optField,
        optStringJson, pageNames, noDupNamed, keyCount_cons,
        keyCount_append, keyCount_nil, lookupField, leftoverFields_cons_mem,
        leftoverFields_cons_not_mem, decodeUserFlat, getValue, getString,
        getOptTimestamp, getOptValue, getOptString, except_bind_ok,
        hlo, lk0, lk1, lk2, lk3, lk4, lk5, lk6, kc0, kc1, kc2, kc3, kc4, hw]
    | simp [decodePage, Page.fields, Page.decodeImage,
        User.decodeImage, serializeUser, timestampField, optField,
        optStringJson, pageNames, noDupNamed, keyCount_cons,
        keyCount_append, keyCount_nil, lookupField, leftoverFields_cons_mem,
        leftoverFields_cons_not_mem, decodeUserFlat, getValue, getString,
        getOptTimestamp, getOptValue, getOptString, except_bind_ok,
        hlo, lk0, lk1, lk2, lk3, lk4, lk5, lk6, kc0, kc1, kc2, kc3, kc4]

theorem page_fields_type_count (x0 : Page)
    (hres : ∀ p ∈ x0.extra, p.1 ∉ pageReserved) :
    keyCount "type" x0.fields = 0 := by
  obtain ⟨u, name, properties, ts, ctx, intg, extra⟩ := x0
  have kt : keyCount "type" extra = 0 :=
    keyCount_reserved pageReserved extra hres _ (by decide)
  rcases u with xid | aid | ⟨xid, aid⟩ <;> rcases ts with _ | ⟨tss⟩ <;>
    rcases ctx with _ | v <;> rcases intg with _ | w <;>
    simp [Page.fields, serializeUser, timestampField, optField,
      optStringJson, keyCount_cons, keyCount_append, keyCount_nil, kt]

theorem decodeScreen_roundTrip (x0 : Screen) (h : ScreenOk x0) :
    decodeScreen x0.fields = Except.ok x0.decodeImage := by
  obtain ⟨u, name, properties, ts, ctx, intg, extra⟩ := x0
  obtain ⟨hres, hctx, hint⟩ := h
  have hlo : leftoverFields ["name", "properties", "timestamp", "context", "integrations"] extra = extra :=
    leftoverFields_reserved screenReserved _ extra hres (by decide)
  have lk0 : lookupField "name" extra = none :=
    lookupField_reserved screenReserved extra hres _ (by decide)
  have lk1 : lookupField "properties" extra = none :=
    lookupField_reserved screenReserved extra hres _ (by decide)
  have lk2 : lookupField "timestamp" extra = none :=
    lookupField_reserved screenReserved extra hres _ (by decide)
  have lk3 : lookupField "context" extra = none :=
    lookupField_reserved screenReserved extra hres _ (by decide)
  have lk4 : lookupField "integrations" extra = none :=
    lookupField_reserved screenReserved extra hres _ (by decide)
  have lk5 : lookupField "userId" extra = none :=
    lookupField_reserved screenReserved extra hres _ (by decide)
  have lk6 : lookupField "anonymousId" extra = none :=
    lookupField_reserved screenReserved extra hres _ (by decide)
  have kc0 : keyCount "name" extra = 0 :=
    keyCount_reserved screenReserved extra hres _ (by decide)
  have kc1 : keyCount "properties" extra = 0 :=
    keyCount_reserved screenReserved extra hres _ (by decide)
  have kc2 : keyCount "timestamp" extra = 0 :=
    keyCount_reserved screenReserved extra hres _ (by decide)
  have kc3 : keyCount "context" extra = 0 :=
    keyCount_reserved screenReserved extra hres _ (by decide)
  have kc4 : keyCount "integrations" extra = 0 :=
    keyCount_reserved screenReserved extra hres _ (by decide)
  rcases u with xid | aid | ⟨xid, aid⟩ <;> rcases ts with _ | ⟨tss⟩ <;>
    rcases ctx with _ | v <;> rcases intg with _ | w
  all_goals try have hv : v ≠ Json.null := fun e => hctx (by rw [e])
  all_goals try have hw : w ≠ Json.null := fun e => hint (by rw [e])
  all_goals first
    | simp [decodeScreen, Screen.fields, Screen.decodeImage,
        User.decodeImage, serializeUser, timestampField, optField,
        optStringJson, screenNames, noDupNamed, keyCount_cons,
        keyCount_append, keyCount_nil, lookupField, leftoverFields_cons_mem,
        leftoverFields_cons_not_mem, decodeUserFlat, getValue, getString,
        getOptTimestamp, getOptValue, getOptString, except_bind_ok,
        hlo, lk0, lk1, lk2, lk3, lk4, lk5, lk6, kc0, kc1, kc2, kc3, kc4, hv, hw]
    | simp [decodeScreen, Screen.fields, Screen.decodeImage,
        User.decodeImage, serializeUser, timestampField, optField,
        optStringJson, screenNames, noDupNamed, keyCount_cons,
        keyCount_append, keyCount_nil, lookupField, leftoverFields_cons_mem,
        leftoverFields_cons_not_mem, decodeUserFlat, getValue, getString,
        getOptTimestamp, getOptValue, getOptString, except_bind_ok,
        hlo, lk0, lk1, lk2, lk3, lk4, lk5, lk6, kc0, kc1, kc2, kc3, kc4, hv]
    | simp [decodeScreen, Screen.fields, Screen.decodeImage,
        User.decodeImage, serializeUser, timestampField, optField,
        optStringJson, screenNames, noDupNamed, keyCount_cons,
        keyCount_append, keyCount_nil, lookupField, leftoverFields_cons_mem,
        leftoverFields_cons_not_mem, decodeUserFlat, getValue, getString,
        getOptTimestamp, getOptValue, getOptString, except_bind_ok,
        hlo, lk0, lk1, lk2, lk3, lk4, lk5, lk6, kc0, kc1, kc2, kc3, kc4, hw]
    | simp [decodeScreen, Screen.fields, Screen.decodeImage,
        User.decodeImage, serializeUser, timestampField, optField,
        optStringJson, screenNames, noDupNamed, keyCount_cons,
        keyCount_append, keyCount_nil, lookupField, leftoverFields_cons_mem,
        leftoverFields_cons_not_mem, decodeUserFlat, getValue, getString,
        getOptTimestamp, getOptValue, getOptString, except_bind_ok,
        hlo, lk0, lk1, lk2, lk3, lk4, lk5, lk6, kc0, kc1, kc2, kc3, kc4]

theorem screen_fields_type_count (x0 : Screen)
    (hres : ∀ p ∈ x0.extra, p.1 ∉ screenReserved) :
    keyCount "type" x0.fields = 0 := by
  obtain ⟨u, name, properties, ts, ctx, intg, extra⟩ := x0
  have kt : keyCount "type" extra = 0 :=
    keyCount_reserved screenReserved extra hres _ (by decide)
  rcases u with xid | aid | ⟨xid, aid⟩ <;> rcases ts with _ | ⟨tss⟩ <;>
    rcases ctx with _ | v <;> rcases intg with _ | w <;>
    simp [Screen.fields, serializeUser, timestampField, optField,
      optStringJson, keyCount_cons, keyCount_append, keyCount_nil, kt]

theorem decodeGroup_roundTrip (x0 : Group) (h : GroupOk x0) :
    decodeGroup x0.fields = Except.ok x0.decodeImage := by
  obtain ⟨u, group_id, traits, ts, ctx, intg, extra⟩ := x0
  obtain ⟨hres, hctx, hint⟩ := h
  have hlo : leftoverFields ["groupId", "traits", "timestamp", "context", "integrations"] extra = extra :=
    leftoverFields_reserved groupReserved _ extra hres (by decide)
  have lk0 : lookupField "groupId" extra = none :=
    lookupField_reserved groupReserved extra hres _ (by decide)
  have lk1 : lookupField "traits" extra = none :=
    lookupField_reserved groupReserved extra hres _ (by decide)
  have lk2 : lookupField "timestamp" extra = none :=
    lookupField_reserved groupReserved extra hres _ (by decide)
  have lk3 : lookupField "context" extra = none :=
    lookupField_reserved groupReserved extra hres _ (by decide)
  have lk4 : lookupField "integrations" extra = none :=
    lookupField_reserved groupReserved extra hres _ (by decide)
  have lk5 : lookupField "userId" extra = none :=
    lookupField_reserved groupReserved extra hres _ (by decide)
  have lk6 : lookupField "anonymousId" extra = none :=
    lookupField_reserved groupReserved extra hres _ (by decide)
  have kc0 : keyCount "groupId" extra = 0 :=
    keyCount_reserved groupReserved extra hres _ (by decide)
  have kc1 : keyCount "traits" extra = 0 :=
    keyCount_reserved groupReserved extra hres _ (by decide)
  have kc2 : keyCount "timestamp" extra = 0 :=
    keyCount_reserved groupReserved extra hres _ (by decide)
  have kc3 : keyCount "context" extra = 0 :=
    keyCount_reserved groupReserved extra hres _ (by decide)
  have kc4 : keyCount "integrations" extra = 0 :=
    keyCount_reserved groupReserved extra hres _ (by decide)
  rcases u with xid | aid | ⟨xid, aid⟩ <;> rcases ts with _ | ⟨tss⟩ <;>
    rcases ctx with _ | v <;> rcases intg with _ | w
  all_goals try have hv : v ≠ Json.null := fun e => hctx (by rw [e])
  all_goals try have hw : w ≠ Json.null := fun e => hint (by rw [e])
  all_goals first
    | simp [decodeGroup, Group.fields, Group.decodeImage,
        User.decodeImage, serializeUser, timestampField, optField,
        optStringJson, groupNames, noDupNamed, keyCount_cons,
        keyCount_append, keyCount_nil, lookupField, leftoverFields_cons_mem,
        leftoverFields_cons_not_mem, decodeUserFlat, getValue, getString,
        getOptTimestamp, getOptValue, getOptString, except_bind_ok,
        hlo, lk0, lk1, lk2, lk3, lk4, lk5, lk6, kc0, kc1, kc2, kc3, kc4, hv, hw]
    | simp [decodeGroup, Group.fields, Group.decodeImage,
        User.decodeImage, serializeUser, timestampField, optField,
        optStringJson, groupNames, noDupNamed, keyCount_cons,
        keyCount_append, keyCount_nil, lookupField, leftoverFields_cons_mem,
        leftoverFields_cons_not_mem, decodeUserFlat, getValue, getString,
        getOptTimestamp, getOptValue, getOptString, except_bind_ok,
        hlo, lk0, lk1, lk2, lk3, lk4, lk5, lk6, kc0, kc1, kc2, kc3, kc4, hv]
    | simp [decodeGroup, Group.fields, Group.decodeImage,
        User.decodeImage, serializeUser, timestampField, optField,
        optStringJson, groupNames, noDupNamed, keyCount_cons,
        keyCount_append, keyCount_nil, lookupField, leftoverFields_cons_mem,
        leftoverFields_cons_not_mem, decodeUserFlat, getValue, getString,
        getOptTimestamp, getOptValue, getOptString, except_bind_ok,
        hlo, lk0, lk1, lk2, lk3, lk4, lk5, lk6, kc0, kc1, kc2, kc3, kc4, hw]
    | simp [decodeGroup, Group.fields, Group.decodeImage,
        User.decodeImage, serializeUser, timestampField, optField,
        optStringJson, groupNames, noDupNamed, keyCount_cons,
        keyCount_append, keyCount_nil, lookupField, leftoverFields_cons_mem,
        leftoverFields_cons_not_mem, decodeUserFlat, getValue, getString,
        getOptTimestamp, getOptValue, getOptString, except_bind_ok,
        hlo, lk0, lk1, lk2, lk3, lk4, lk5, lk6, kc0, kc1, kc2, kc3, kc4]

theorem group_fields_type_count (x0 : Group)
    (hres : ∀ p ∈ x0.extra, p.1 ∉ groupReserved) :
    keyCount "type" x0.fields = 0 := by
  obtain ⟨u, group_id, traits, ts, ctx, intg, extra⟩ := x0
  have kt : keyCount "type" extra = 0 :=
    keyCount_reserved groupReserved extra hres _ (by decide)
  rcases u with xid | aid | ⟨xid, aid⟩ <;> rcases ts with _ | ⟨tss⟩ <;>
    rcases ctx with _ | v <;> rcases intg with _ | w <;>
    simp [Group.fields, serializeUser, timestampField, optField,
      optStringJson, keyCount_cons, keyCount_append, keyCount_nil, kt]

theorem decodeAlias_roundTrip (x0 : Alias) (h : AliasOk x0) :
    decodeAlias x0.fields = Except.ok x0.decodeImage := by
  obtain ⟨u, previous_id, ts, ctx, intg, extra⟩ := x0
  obtain ⟨hres, hctx, hint⟩ := h
  have hlo : leftoverFields ["previousId", "timestamp", "context", "integrations"] extra = extra :=
    leftoverFields_reserved aliasReserved _ extra hres (by decide)
  have lk0 : lookupField "previousId" extra = none :=
    lookupField_reserved aliasReserved extra hres _ (by decide)
  have lk1 : lookupField "timestamp" extra = none :=
    lookupField_reserved aliasReserved extra hres _ (by decide)
  have lk2 : lookupField "context" extra = none :=
    lookupField_reserved aliasReserved extra hres _ (by decide)
  have lk3 : lookupField "integrations" extra = none :=
    lookupField_reserved aliasReserved extra hres _ (by decide)
  have lk4 : lookupField "userId" extra = none :=
    lookupField_reserved aliasReserved extra hres _ (by decide)
  have lk5 : lookupField "anonymousId" extra = none :=
    lookupField_reserved aliasReserved extra hres _ (by decide)
  have kc0 : keyCount "previousId" extra = 0 :=
    keyCount_reserved aliasReserved extra hres _ (by decide)
  have kc1 : keyCount "timestamp" extra = 0 :=
    keyCount_reserved aliasReserved extra hres _ (by decide)
  have kc2 : keyCount "context" extra = 0 :=
    keyCount_reserved aliasReserved extra hres _ (by decide)
  have kc3 : keyCount "integrations" extra = 0 :=
    keyCount_reserved aliasReserved extra hres _ (by decide)
  rcases u with xid | aid | ⟨xid, aid⟩ <;> rcases ts with _ | ⟨tss⟩ <;>
    rcases ctx with _ | v <;> rcases intg with _ | w
  all_goals try have hv : v ≠ Json.null := fun e => hctx (by rw [e])
  all_goals try have hw : w ≠ Json.null := fun e => hint (by rw [e])
  all_goals first
    | simp [decodeAlias, Alias.fields, Alias.decodeImage,
        User.decodeImage, serializeUser, timestampField, optField,
        optStringJson, aliasNames, noDupNamed, keyCount_cons,
        keyCount_append, keyCount_nil, lookupField, leftoverFields_cons_mem,
        leftoverFields_cons_not_mem, decodeUserFlat, getValue, getString,
        getOptTimestamp, getOptValue, getOptString, except_bind_ok,
        hlo, lk0, lk1, lk2, lk3, lk4, lk5, kc0, kc1, kc2, kc3, hv, hw]
    | simp [decodeAlias, Alias.fields, Alias.decodeImage,
        User.decodeImage, serializeUser, timestampField, optField,
        optStringJson, aliasNames, noDupNamed, keyCount_cons,
        keyCount_append, keyCount_nil, lookupField, leftoverFields_cons_mem,
        leftoverFields_cons_not_mem, decodeUserFlat, getValue, getString,
        getOptTimestamp, getOptValue, getOptString, except_bind_ok,
        hlo, lk0, lk1, lk2, lk3, lk4, lk5, kc0, kc1, kc2, kc3, hv]
    | simp [decodeAlias, Alias.fields, Alias.decodeImage,
        User.decodeImage, serializeUser, timestampField, optField,
        optStringJson, aliasNames, noDupNamed, keyCount_cons,
        keyCount_append, keyCount_nil, lookupField, leftoverFields_cons_mem,
        leftoverFields_cons_not_mem, decodeUserFlat, getValue, getString,
        getOptTimestamp, getOptValue, getOptString, except_bind_ok,
        hlo, lk0, lk1, lk2, lk3, lk4, lk5, kc0, kc1, kc2, kc3, hw]
    | simp [decodeAlias, Alias.fields, Alias.decodeImage,
        User.decodeImage, serializeUser, timestampField, optField,
        optStringJson, aliasNames, noDupNamed, keyCount_cons,
        keyCount_append, keyCount_nil, lookupField, leftoverFields_cons_mem,
        leftoverFields_cons_not_mem, decodeUserFlat, getValue, getString,
        getOptTimestamp, getOptValue, getOptString, except_bind_ok,
        hlo, lk0, lk1, lk2, lk3, lk4, lk5, kc0, kc1, kc2, kc3]

theorem alias_fields_type_count (x0 : Alias)
    (hres : ∀ p ∈ x0.extra, p.1 ∉ aliasReserved) :
    keyCount "type" x0.fields = 0 := by
  obtain ⟨u, previous_id, ts, ctx, intg, extra⟩ := x0
  have kt : keyCount "type" extra = 0 :=
    keyCount_reserved aliasReserved extra hres _ (by decide)
  rcases u with xid | aid | ⟨xid, aid⟩ <;> rcases ts with _ | ⟨tss⟩ <;>
    rcases ctx with _ | v <;> rcases intg with _ | w <;>
    simp [Alias.fields, serializeUser, timestampField, optField,
      optStringJson, keyCount_cons, keyCount_append, keyCount_nil, kt]

theorem except_map_ok {e a b : Type} (f : a → b) (x : a) :
    (f <$> (Except.ok x : Except e a)) = Except.ok (f x) := rfl

theorem batch_fields_type_count (b : Batch)
    (hres : ∀ p ∈ b.extra, p.1 ∉ batchReserved) :
    keyCount "type" b.fields = 0 := by
  obtain ⟨items, ctx, intg, extra⟩ := b
  have kt : keyCount "type" extra = 0 :=
    keyCount_reserved batchReserved extra hres _ (by decide)
  rcases ctx with _ | v <;> rcases intg with _ | w <;>
    simp [Batch.fields, optField, keyCount_cons, keyCount_append,
      keyCount_nil, kt]

theorem decodeBatchItem_roundTrip (m : BatchMessage) (h : BatchMessageOk m) :
    decodeBatchItem m.toJson = Except.ok m.decodeImage := by
  cases m with
  | Identify i =>
    have hI : IdentifyOk i := h
    have hr := decodeIdentify_roundTrip i hI
    have kt := identify_fields_type_count i hI.1
    simp [BatchMessage.toJson, BatchMessage.decodeImage, decodeBatchItem,
      lookupField, eraseFirstKey, keyCount_cons, kt, decodeBatchTagged, hr,
      except_map_ok]
  | Track t =>
    have hT : TrackOk t := h
    have hr := decodeTrack_roundTrip t hT
    have kt := track_fields_type_count t hT.1
    simp [BatchMessage.toJson, BatchMessage.decodeImage, decodeBatchItem,
      lookupField, eraseFirstKey, keyCount_cons, kt, decodeBatchTagged, hr,
      except_map_ok]
  | Page p =>
    have hP : PageOk p := h
    have hr := decodePage_roundTrip p hP
    have kt := page_fields_type_count p hP.1
    simp [BatchMessage.toJson, BatchMessage.decodeImage, decodeBatchItem,
      lookupField, eraseFirstKey, keyCount_cons, kt, decodeBatchTagged, hr,
      except_map_ok]
  | Screen sc =>
    have hS : ScreenOk sc := h
    have hr := decodeScreen_roundTrip sc hS
    have kt := screen_fields_type_count sc hS.1
    simp [BatchMessage.toJson, BatchMessage.decodeImage, decodeBatchItem,
      lookupField, eraseFirstKey, keyCount_cons, kt, decodeBatchTagged, hr,
      except_map_ok]
  | Group g =>
    have hG : GroupOk g := h
    have hr := decodeGroup_roundTrip g hG
    have kt := group_fields_type_count g hG.1
    simp [BatchMessage.toJson, BatchMessage.decodeImage, decodeBatchItem,
      lookupField, eraseFirstKey, keyCount_cons, kt, decodeBatchTagged, hr,
      except_map_ok]
  | Alias al =>
    have hA : AliasOk al := h
    have hr := decodeAlias_roundTrip al hA
    have kt := alias_fields_type_count al hA.1
    simp [BatchMessage.toJson, BatchMessage.decodeImage, decodeBatchItem,
      lookupField, eraseFirstKey, keyCount_cons, kt, decodeBatchTagged, hr,
      except_map_ok]

theorem decodeItems_roundTrip (items : List BatchMessage)
    (h : ∀ m ∈ items, BatchMessageOk m) :
    decodeItems (items.map BatchMessage.toJson) =
      Except.ok (items.map BatchMessage.decodeImage) := by
  induction items with
  | nil => rfl
  | cons m rest ih =>
    have hm := decodeBatchItem_roundTrip m (h m (List.mem_cons_self m rest))
    have hr := ih (fun q hq => h q (List.mem_cons_of_mem m hq))
    simp [decodeItems, hm, hr, except_bind_ok]

theorem decodeBatch_roundTrip (b : Batch) (h : BatchOk b) :
    decodeBatch b.fields = Except.ok b.decodeImage := by
  obtain ⟨items, ctx, intg, extra⟩ := b
  obtain ⟨hitems, hres, hctx, hint⟩ := h
  have hlo : leftoverFields ["batch", "context", "integrations"] extra = extra :=
    leftoverFields_reserved batchReserved _ extra hres (by decide)
  have lk0 : lookupField "batch" extra = none :=
    lookupField_reserved batchReserved extra hres _ (by decide)
  have lk1 : lookupField "context" extra = none :=
    lookupField_reserved batchReserved extra hres _ (by decide)
  have lk2 : lookupField "integrations" extra = none :=
    lookupField_reserved batchReserved extra hres _ (by decide)
  have kc0 : keyCount "batch" extra = 0 :=
    keyCount_reserved batchReserved extra hres _ (by decide)
  have kc1 : keyCount "context" extra = 0 :=
    keyCount_reserved batchReserved extra hres _ (by decide)
  have kc2 : keyCount "integrations" extra = 0 :=
    keyCount_reserved batchReserved extra hres _ (by decide)
  have hdec : decodeItems (items.map BatchMessage.toJson) =
      Except.ok (items.map BatchMessage.decodeImage) :=
    decodeItems_roundTrip items hitems
  rcases ctx with _ | v <;> rcases intg with _ | w
  all_goals try have hv : v ≠ Json.null := fun e => hctx (by rw [e])
  all_goals try have hw : w ≠ Json.null := fun e => hint (by rw [e])
  all_goals first
    | simp [decodeBatch, Batch.fields, Batch.decodeImage, optField,
        batchNames, noDupNamed, keyCount_cons, keyCount_append, keyCount_nil,
        lookupField, leftoverFields_cons_mem, leftoverFields_cons_not_mem,
        getValue, getOptValue, except_bind_ok, hlo, lk0, lk1, lk2, kc0, kc1,
        kc2, hdec, hv, hw]
    | simp [decodeBatch, Batch.fields, Batch.decodeImage, optField,
        batchNames, noDupNamed, keyCount_cons, keyCount_append, keyCount_nil,
        lookupField, leftoverFields_cons_mem, leftoverFields_cons_not_mem,
        getValue, getOptValue, except_bind_ok, hlo, lk0, lk1, lk2, kc0, kc1,
        kc2, hdec, hv]
    | simp [decodeBatch, Batch.fields, Batch.decodeImage, optField,
        batchNames, noDupNamed, keyCount_cons, keyCount_append, keyCount_nil,
        lookupField, leftoverFields_cons_mem, leftoverFields_cons_not_mem,
        getValue, getOptValue, except_bind_ok, hlo, lk0, lk1, lk2, kc0, kc1,
        kc2, hdec, hw]
    | simp [decodeBatch, Batch.fields, Batch.decodeImage, optField,
        batchNames, noDupNamed, keyCount_cons, keyCount_append, keyCount_nil,
        lookupField, leftoverFields_cons_mem, leftoverFields_cons_not_mem,
        getValue, getOptValue, except_bind_ok, hlo, lk0, lk1, lk2, kc0, kc1,
        kc2, hdec]

/-- C2 (counterexample): a track whose extra map binds the key `type`
produces a transport encoding that contains a `type` field, so the claim
that the transport encoding of every value contains no discriminant field
fails. -/
theorem transport_type_key_counterexample :
    "type" ∈ (Message.fieldsTransport (Message.Track trackTypeExtra)).map
      Prod.fst := by
  decide

/-- C2 (amended): the transport encoder itself never emits a discriminant:
the transport encoding carries exactly the `type` keys the caller's extra
map supplies; the stored encoding always carries a `type` discriminant
whose value names the constructed variant. -/
theorem discriminant_emission (m : Message) :
    keyCount "type" (Message.fieldsTransport m) =
        keyCount "type" (Message.extraOf m) ∧
      lookupField "type" (StoredMessage.fields (Message.toStored m)) =
        some (Json.str (StoredMessage.typeName (Message.toStored m))) := by
  constructor
  · cases m with
    | Identify i =>
      obtain ⟨u, tr, ts, ctx, intg, extra⟩ := i
      rcases u with x | a | ⟨x, a⟩ <;> rcases ts with _ | ⟨s⟩ <;>
        rcases ctx with _ | v <;> rcases intg with _ | w <;>
        simp [Identify.fields, Message.fieldsTransport, Message.extraOf, Message.timestampOf, Message.contextOf, Message.integrationsOf, serializeUser, timestampField, optField, keyCount_cons, keyCount_append, keyCount_nil]
    | Track t =>
      obtain ⟨u, ev, pr, ts, ctx, intg, extra⟩ := t
      rcases u with x | a | ⟨x, a⟩ <;> rcases ts with _ | ⟨s⟩ <;>
        rcases ctx with _ | v <;> rcases intg with _ | w <;>
        simp [Track.fields, Message.fieldsTransport, Message.extraOf, Message.timestampOf, Message.contextOf, Message.integrationsOf, serializeUser, timestampField, optField, keyCount_cons, keyCount_append, keyCount_nil]
    | Page p =>
      obtain ⟨u, nm, pr, ts, ctx, intg, extra⟩ := p
      rcases u with x | a | ⟨x, a⟩ <;> rcases ts with _ | ⟨s⟩ <;>
        rcases ctx with _ | v <;> rcases intg with _ | w <;>
        simp [Page.fields, Message.fieldsTransport, Message.extraOf, Message.timestampOf, Message.contextOf, Message.integrationsOf, serializeUser, timestampField, optField, keyCount_cons, keyCount_append, keyCount_nil]
    | Screen sc =>
      obtain ⟨u, nm, pr, ts, ctx, intg, extra⟩ := sc
      rcases u with x | a | ⟨x, a⟩ <;> rcases ts with _ | ⟨s⟩ <;>
        rcases ctx with _ | v <;> rcases intg with _ | w <;>
        simp [Screen.fields, Message.fieldsTransport, Message.extraOf, Message.timestampOf, Message.contextOf, Message.integrationsOf, serializeUser, timestampField, optField, keyCount_cons, keyCount_append, keyCount_nil]
    | Group g =>
      obtain ⟨u, gid, tr, ts, ctx, intg, extra⟩ := g
      rcases u with x | a | ⟨x, a⟩ <;> rcases ts with _ | ⟨s⟩ <;>
        rcases ctx with _ | v <;> rcases intg with _ | w <;>
        simp [Group.fields, Message.fieldsTransport, Message.extraOf, Message.timestampOf, Message.contextOf, Message.integrationsOf, serializeUser, timestampField, optField, keyCount_cons, keyCount_append, keyCount_nil]
    | Alias al =>
      obtain ⟨u, pid, ts, ctx, intg, extra⟩ := al
      rcases u with x | a | ⟨x, a⟩ <;> rcases ts with _ | ⟨s⟩ <;>
        rcases ctx with _ | v <;> rcases intg with _ | w <;>
        simp [Alias.fields, Message.fieldsTransport, Message.extraOf, Message.timestampOf, Message.contextOf, Message.integrationsOf, serializeUser, timestampField, optField, keyCount_cons, keyCount_append, keyCount_nil]
    | Batch b =>
      obtain ⟨items, ctx, intg, extra⟩ := b
      rcases ctx with _ | v <;> rcases intg with _ | w <;>
        simp [Batch.fields, Message.fieldsTransport, Message.extraOf, Message.timestampOf, Message.contextOf, Message.integrationsOf, serializeUser, timestampField, optField, keyCount_cons, keyCount_append, keyCount_nil]
  · cases m <;>
      simp [Message.toStored, StoredMessage.fields, StoredMessage.typeName,
        lookupField]

/-- C3 (counterexample): a track carrying an extra binding for the wire key
`event` is a perfectly constructible value: the construction API performs
no collision check. -/
theorem track_extra_collision_constructible :
    trackEventExtra.event = "e" ∧
      lookupField "event" trackEventExtra.extra = some (Json.str "x") :=
  ⟨rfl, rfl⟩

/-- C3 (amended): nothing rejects an extra key that collides with a named
field; encoding merges the named field and the whole extra map, so every
track is encoded with one `event` key from the named field plus one per
extra binding of `event` (a collision yields a duplicate key, not an
error). -/
theorem track_fields_event_count (t : Track) :
    keyCount "event" (Track.fields t) = 1 + keyCount "event" t.extra := by
  obtain ⟨u, ev, pr, ts, ctx, intg, extra⟩ := t
  rcases u with x | a | ⟨x, a⟩ <;> rcases ts with _ | ⟨s⟩ <;>
    rcases ctx with _ | v <;> rcases intg with _ | w <;>
    simp [Track.fields, serializeUser, timestampField, optField,
      keyCount_cons, keyCount_append, keyCount_nil]

/-- C4 (witness): finalizing a one-item batch whose item lacks a timestamp
gives that item the finalize-time clock reading. -/
theorem finalizeBatch_timestamps_witness :
    (finalizeBatch witnessNow witnessItems)[0]? =
        some (BatchMessage.Alias
          ⟨User.UserId "u", "p", some witnessNow, none, none, []⟩) ∧
      ∃ m₀, witnessItems[0]? = some m₀ ∧
        (BatchMessage.Alias
            ⟨User.UserId "u", "p", some witnessNow, none, none, []⟩).timestamp =
          some (m₀.timestamp.getD witnessNow) :=
  ⟨rfl, finalizeBatch_timestamps witnessNow witnessItems 0 _ rfl⟩

/-- C5: every identity value carries at least one of the two identifiers —
the type has exactly three shapes, each with an id, so no operation can
produce an identity with neither. -/
theorem user_identity_invariant (u : User) :
    (User.userId? u).isSome ∨ (User.anonymousId? u).isSome := by
  cases u <;> simp [User.userId?, User.anonymousId?]

/-- C6: the destination-path lookup is a total pure table keyed only by the
variant: each of the seven kinds maps to its fixed path whatever the
payload. -/
theorem message_path_table :
    (∀ i, (Message.Identify i).path = "/v1/identify") ∧
    (∀ t, (Message.Track t).path = "/v1/track") ∧
    (∀ p, (Message.Page p).path = "/v1/page") ∧
    (∀ s, (Message.Screen s).path = "/v1/screen") ∧
    (∀ g, (Message.Group g).path = "/v1/group") ∧
    (∀ a, (Message.Alias a).path = "/v1/alias") ∧
    (∀ b, (Message.Batch b).path = "/v1/batch") :=
  ⟨fun _ => rfl, fun _ => rfl, fun _ => rfl, fun _ => rfl, fun _ => rfl,
    fun _ => rfl, fun _ => rfl⟩

/-- C7: stringifying an identity yields the user id when both ids are
present, and otherwise whichever identifier the identity carries. -/
theorem user_display_prefers_user_id :
    (∀ uid aid, (User.Both uid aid).display = uid) ∧
    (∀ uid, (User.UserId uid).display = uid) ∧
    (∀ aid, (User.AnonymousId aid).display = aid) :=
  ⟨fun _ _ => rfl, fun _ => rfl, fun _ => rfl⟩

/-- C8 (counterexample): an alias with no timestamp but an extra binding
for the key `timestamp` encodes with a `timestamp` key present, refuting
the claim that an absent timestamp never leaves such a key in the encoded
object. -/
theorem absent_timestamp_key_counterexample :
    Message.timestampOf (Message.Alias aliasTimestampExtra) = none ∧
      "timestamp" ∈
        (Message.fieldsTransport (Message.Alias aliasTimestampExtra)).map
          Prod.fst := by
  decide

/-- C8 (amended): the encoders themselves emit a timestamp / context /
integrations key exactly when the field is present — an absent field
contributes no key, and the only such keys beyond that are the caller's own
extra bindings; the stored encoding is the transport encoding with the
`type` discriminant prepended, so the same holds there. -/
theorem absent_fields_omitted (m : Message) :
    keyCount "timestamp" (Message.fieldsTransport m) =
        (if Message.timestampOf m = none then 0 else 1) +
          keyCount "timestamp" (Message.extraOf m) ∧
      keyCount "context" (Message.fieldsTransport m) =
        (if Message.contextOf m = none then 0 else 1) +
          keyCount "context" (Message.extraOf m) ∧
      keyCount "integrations" (Message.fieldsTransport m) =
        (if Message.integrationsOf m = none then 0 else 1) +
          keyCount "integrations" (Message.extraOf m) ∧
      StoredMessage.fields (Message.toStored m) =
        ("type", Json.str (StoredMessage.typeName (Message.toStored m))) ::
          Message.fieldsTransport m := by
  refine ⟨?_, ?_, ?_, ?_⟩
  · cases m with
    | Identify i =>
      obtain ⟨u, tr, ts, ctx, intg, extra⟩ := i
      rcases u with x | a | ⟨x, a⟩ <;> rcases ts with _ | ⟨s⟩ <;>
        rcases ctx with _ | v <;> rcases intg with _ | w <;>
        simp [Identify.fields, Message.fieldsTransport, Message.extraOf, Message.timestampOf, Message.contextOf, Message.integrationsOf, serializeUser, timestampField, optField, keyCount_cons, keyCount_append, keyCount_nil]
    | Track t =>
      obtain ⟨u, ev, pr, ts, ctx, intg, extra⟩ := t
      rcases u with x | a | ⟨x, a⟩ <;> rcases ts with _ | ⟨s⟩ <;>
        rcases ctx with _ | v <;> rcases intg with _ | w <;>
        simp [Track.fields, Message.fieldsTransport, Message.extraOf, Message.timestampOf, Message.contextOf, Message.integrationsOf, serializeUser, timestampField, optField, keyCount_cons, keyCount_append, keyCount_nil]
    | Page p =>
      obtain ⟨u, nm, pr, ts, ctx, intg, extra⟩ := p
      rcases u with x | a | ⟨x, a⟩ <;> rcases ts with _ | ⟨s⟩ <;>
        rcases ctx with _ | v <;> rcases intg with _ | w <;>
        simp [Page.fields, Message.fieldsTransport, Message.extraOf, Message.timestampOf, Message.contextOf, Message.integrationsOf, serializeUser, timestampField, optField, keyCount_cons, keyCount_append, keyCount_nil]
    | Screen sc =>
      obtain ⟨u, nm, pr, ts, ctx, intg, extra⟩ := sc
      rcases u with x | a | ⟨x, a⟩ <;> rcases ts with _ | ⟨s⟩ <;>
        rcases ctx with _ | v <;> rcases intg with _ | w <;>
        simp [Screen.fields, Message.fieldsTransport, Message.extraOf, Message.timestampOf, Message.contextOf, Message.integrationsOf, serializeUser, timestampField, optField, keyCount_cons, keyCount_append, keyCount_nil]
    | Group g =>
      obtain ⟨u, gid, tr, ts, ctx, intg, extra⟩ := g
      rcases u with x | a | ⟨x, a⟩ <;> rcases ts with _ | ⟨s⟩ <;>
        rcases ctx with _ | v <;> rcases intg with _ | w <;>
        simp [Group.fields, Message.fieldsTransport, Message.extraOf, Message.timestampOf, Message.contextOf, Message.integrationsOf, serializeUser, timestampField, optField, keyCount_cons, keyCount_append, keyCount_nil]
    | Alias al =>
      obtain ⟨u, pid, ts, ctx, intg, extra⟩ := al
      rcases u with x | a | ⟨x, a⟩ <;> rcases ts with _ | ⟨s⟩ <;>
        rcases ctx with _ | v <;> rcases intg with _ | w <;>
        simp [Alias.fields, Message.fieldsTransport, Message.extraOf, Message.timestampOf, Message.contextOf, Message.integrationsOf, serializeUser, timestampField, optField, keyCount_cons, keyCount_append, keyCount_nil]
    | Batch b =>
      obtain ⟨items, ctx, intg, extra⟩ := b
      rcases ctx with _ | v <;> rcases intg with _ | w <;>
        simp [Batch.fields, Message.fieldsTransport, Message.extraOf, Message.timestampOf, Message.contextOf, Message.integrationsOf, serializeUser, timestampField, optField, keyCount_cons, keyCount_append, keyCount_nil]
  · cases m with
    | Identify i =>
      obtain ⟨u, tr, ts, ctx, intg, extra⟩ := i
      rcases u with x | a | ⟨x, a⟩ <;> rcases ts with _ | ⟨s⟩ <;>
        rcases ctx with _ | v <;> rcases intg with _ | w <;>
        simp [Identify.fields, Message.fieldsTransport, Message.extraOf, Message.timestampOf, Message.contextOf, Message.integrationsOf, serializeUser, timestampField, optField, keyCount_cons, keyCount_append, keyCount_nil]
    | Track t =>
      obtain ⟨u, ev, pr, ts, ctx, intg, extra⟩ := t
      rcases u with x | a | ⟨x, a⟩ <;> rcases ts with _ | ⟨s⟩ <;>
        rcases ctx with _ | v <;> rcases intg with _ | w <;>
        simp [Track.fields, Message.fieldsTransport, Message.extraOf, Message.timestampOf, Message.contextOf, Message.integrationsOf, serializeUser, timestampField, optField, keyCount_cons, keyCount_append, keyCount_nil]
    | Page p =>
      obtain ⟨u, nm, pr, ts, ctx, intg, extra⟩ := p
      rcases u with x | a | ⟨x, a⟩ <;> rcases ts with _ | ⟨s⟩ <;>
        rcases ctx with _ | v <;> rcases intg with _ | w <;>
        simp [Page.fields, Message.fieldsTransport, Message.extraOf, Message.timestampOf, Message.contextOf, Message.integrationsOf, serializeUser, timestampField, optField, keyCount_cons, keyCount_append, keyCount_nil]
    | Screen sc =>
      obtain ⟨u, nm, pr, ts, ctx, intg, extra⟩ := sc
      rcases u with x | a | ⟨x, a⟩ <;> rcases ts with _ | ⟨s⟩ <;>
        rcases ctx with _ | v <;> rcases intg with _ | w <;>
        simp [Screen.fields, Message.fieldsTransport, Message.extraOf, Message.timestampOf, Message.contextOf, Message.integrationsOf, serializeUser, timestampField, optField, keyCount_cons, keyCount_append, keyCount_nil]
    | Group g =>
      obtain ⟨u, gid, tr, ts, ctx, intg, extra⟩ := g
      rcases u with x | a | ⟨x, a⟩ <;> rcases ts with _ | ⟨s⟩ <;>
        rcases ctx with _ | v <;> rcases intg with _ | w <;>
        simp [Group.fields, Message.fieldsTransport, Message.extraOf, Message.timestampOf, Message.contextOf, Message.integrationsOf, serializeUser, timestampField, optField, keyCount_cons, keyCount_append, keyCount_nil]
    | Alias al =>
      obtain ⟨u, pid, ts, ctx, intg, extra⟩ := al
      rcases u with x | a | ⟨x, a⟩ <;> rcases ts with _ | ⟨s⟩ <;>
        rcases ctx with _ | v <;> rcases intg with _ | w <;>
        simp [Alias.fields, Message.fieldsTransport, Message.extraOf, Message.timestampOf, Message.contextOf, Message.integrationsOf, serializeUser, timestampField, optField, keyCount_cons, keyCount_append, keyCount_nil]
    | Batch b =>
      obtain ⟨items, ctx, intg, extra⟩ := b
      rcases ctx with _ | v <;> rcases intg with _ | w <;>
        simp [Batch.fields, Message.fieldsTransport, Message.extraOf, Message.timestampOf, Message.contextOf, Message.integrationsOf, serializeUser, timestampField, optField, keyCount_cons, keyCount_append, keyCount_nil]
  · cases m with
    | Identify i =>
      obtain ⟨u, tr, ts, ctx, intg, extra⟩ := i
      rcases u with x | a | ⟨x, a⟩ <;> rcases ts with _ | ⟨s⟩ <;>
        rcases ctx with _ | v <;> rcases intg with _ | w <;>
        simp [Identify.fields, Message.fieldsTransport, Message.extraOf, Message.timestampOf, Message.contextOf, Message.integrationsOf, serializeUser, timestampField, optField, keyCount_cons, keyCount_append, keyCount_nil]
    | Track t =>
      obtain ⟨u, ev, pr, ts, ctx, intg, extra⟩ := t
      rcases u with x | a | ⟨x, a⟩ <;> rcases ts with _ | ⟨s⟩ <;>
        rcases ctx with _ | v <;> rcases intg with _ | w <;>
        simp [Track.fields, Message.fieldsTransport, Message.extraOf, Message.timestampOf, Message.contextOf, Message.integrationsOf, serializeUser, timestampField, optField, keyCount_cons, keyCount_append, keyCount_nil]
    | Page p =>
      obtain ⟨u, nm, pr, ts, ctx, intg, extra⟩ := p
      rcases u with x | a | ⟨x, a⟩ <;> rcases ts with _ | ⟨s⟩ <;>
        rcases ctx with _ | v <;> rcases intg with _ | w <;>
        simp [Page.fields, Message.fieldsTransport, Message.extraOf, Message.timestampOf, Message.contextOf, Message.integrationsOf, serializeUser, timestampField, optField, keyCount_cons, keyCount_append, keyCount_nil]
    | Screen sc =>
      obtain ⟨u, nm, pr, ts, ctx, intg, extra⟩ := sc
      rcases u with x | a | ⟨x, a⟩ <;> rcases ts with _ | ⟨s⟩ <;>
        rcases ctx with _ | v <;> rcases intg with _ | w <;>
        simp [Screen.fields, Message.fieldsTransport, Message.extraOf, Message.timestampOf, Message.contextOf, Message.integrationsOf, serializeUser, timestampField, optField, keyCount_cons, keyCount_append, keyCount_nil]
    | Group g =>
      obtain ⟨u, gid, tr, ts, ctx, intg, extra⟩ := g
      rcases u with x | a | ⟨x, a⟩ <;> rcases ts with _ | ⟨s⟩ <;>
        rcases ctx with _ | v <;> rcases intg with _ | w <;>
        simp [Group.fields, Message.fieldsTransport, Message.extraOf, Message.timestampOf, Message.contextOf, Message.integrationsOf, serializeUser, timestampField, optField, keyCount_cons, keyCount_append, keyCount_nil]
    | Alias al =>
      obtain ⟨u, pid, ts, ctx, intg, extra⟩ := al
      rcases u with x | a | ⟨x, a⟩ <;> rcases ts with _ | ⟨s⟩ <;>
        rcases ctx with _ | v <;> rcases intg with _ | w <;>
        simp [Alias.fields, Message.fieldsTransport, Message.extraOf, Message.timestampOf, Message.contextOf, Message.integrationsOf, serializeUser, timestampField, optField, keyCount_cons, keyCount_append, keyCount_nil]
    | Batch b =>
      obtain ⟨items, ctx, intg, extra⟩ := b
      rcases ctx with _ | v <;> rcases intg with _ | w <;>
        simp [Batch.fields, Message.fieldsTransport, Message.extraOf, Message.timestampOf, Message.contextOf, Message.integrationsOf, serializeUser, timestampField, optField, keyCount_cons, keyCount_append, keyCount_nil]
  · cases m <;> rfl

/-- C9: decoding a stored object whose string `type` discriminant matches
none of the seven known variant names fails with a decode error surfaced to
the caller rather than producing any message value: when the tag occurs
once the error names the unknown discriminant, and when the tag key itself
is duplicated the tagged reader fails first with its duplicate-field
error. -/
theorem decode_unknown_discriminant (fs : List (String × Json)) (t : String)
    (h1 : lookupField "type" fs = some (Json.str t))
    (h2 : t ∉ ["identify", "track", "page", "screen", "group", "alias",
      "batch"]) :
    (keyCount "type" fs ≤ 1 →
      decodeStoredMessage (Json.obj fs) =
        Except.error ("unknown variant " ++ t)) ∧
    (1 < keyCount "type" fs →
      decodeStoredMessage (Json.obj fs) =
        Except.error "duplicate field type") := by
  have n1 : ¬(t = "identify") := fun e => h2 (by rw [e]; decide)
  have n2 : ¬(t = "track") := fun e => h2 (by rw [e]; decide)
  have n3 : ¬(t = "page") := fun e => h2 (by rw [e]; decide)
  have n4 : ¬(t = "screen") := fun e => h2 (by rw [e]; decide)
  have n5 : ¬(t = "group") := fun e => h2 (by rw [e]; decide)
  have n6 : ¬(t = "alias") := fun e => h2 (by rw [e]; decide)
  have n7 : ¬(t = "batch") := fun e => h2 (by rw [e]; decide)
  constructor
  · intro hc
    simp [decodeStoredMessage, h1, hc, decodeStoredTagged, n1, n2, n3, n4,
      n5, n6, n7]
  · intro hc
    have hc' : ¬ keyCount "type" fs ≤ 1 := not_le.mpr hc
    simp [decodeStoredMessage, h1, hc']

/-- C9 (witness): the discriminant `unknown_kind`, occurring once, is
rejected with an error naming it. -/
theorem decode_unknown_discriminant_witness :
    lookupField "type" [("type", Json.str "unknown_kind")] =
        some (Json.str "unknown_kind") ∧
      "unknown_kind" ∉ ["identify", "track", "page", "screen", "group",
        "alias", "batch"] ∧
      keyCount "type" [("type", Json.str "unknown_kind")] ≤ 1 ∧
      decodeStoredMessage (Json.obj [("type", Json.str "unknown_kind")]) =
        Except.error ("unknown variant " ++ "unknown_kind") :=
  ⟨rfl, by decide, by decide,
    (decode_unknown_discriminant [("type", Json.str "unknown_kind")]
        "unknown_kind" rfl (by decide)).1 (by decide)⟩

theorem mapInsert_comm_of_lt (k₁ k₂ : String) (v₁ v₂ : Json)
    (fs : List (String × Json)) (hlt : k₁ < k₂) :
    mapInsert k₁ v₁ (mapInsert k₂ v₂ fs) =
      mapInsert k₂ v₂ (mapInsert k₁ v₁ fs) := by
  induction fs with
  | nil =>
    simp [mapInsert, hlt, lt_asymm hlt, Ne.symm (ne_of_lt hlt)]
  | cons p rest ih =>
    obtain ⟨k, v⟩ := p
    rcases lt_trichotomy k₁ k with h1 | h1 | h1
    · rcases lt_trichotomy k₂ k with h2 | h2 | h2
      · simp [mapInsert, h1, h2, hlt, lt_asymm hlt, Ne.symm (ne_of_lt hlt)]
      · subst h2
        simp [mapInsert, h1, hlt, lt_asymm hlt, Ne.symm (ne_of_lt hlt),
          lt_irrefl]
      · simp [mapInsert, h1, lt_asymm h2, ne_of_gt h2, hlt, lt_asymm hlt,
          Ne.symm (ne_of_lt hlt)]
    · subst h1
      simp [mapInsert, lt_irrefl, hlt, lt_asymm hlt, Ne.symm (ne_of_lt hlt)]
    · have h0 : k < k₂ := lt_trans h1 hlt
      simp [mapInsert, lt_asymm h1, ne_of_gt h1, lt_asymm h0, ne_of_gt h0,
        ih]

/-- C10: encoding is deterministic — the encoders are functions of the
message value alone, producing identical byte strings on equal inputs, and
the map model underlying extra fields is order-canonical, so inserting the
same distinct keys in either order yields the same map and hence the same
bytes. -/
theorem encode_deterministic :
    (∀ m₁ m₂ : Message, m₁ = m₂ →
      encodeTransport m₁ = encodeTransport m₂ ∧
        encodeStored (Message.toStored m₁) =
          encodeStored (Message.toStored m₂)) ∧
      (∀ (k₁ k₂ : String) (v₁ v₂ : Json) (fs : List (String × Json)),
        k₁ ≠ k₂ →
        mapInsert k₁ v₁ (mapInsert k₂ v₂ fs) =
          mapInsert k₂ v₂ (mapInsert k₁ v₁ fs)) := by
  constructor
  · intro m₁ m₂ h
    subst h
    exact ⟨rfl, rfl⟩
  · intro k₁ k₂ v₁ v₂ fs hne
    rcases lt_trichotomy k₁ k₂ with h | h | h
    · exact mapInsert_comm_of_lt k₁ k₂ v₁ v₂ fs h
    · exact absurd h hne
    · exact (mapInsert_comm_of_lt k₂ k₁ v₂ v₁ fs h).symm

/-- C10 (witness): determinism and insertion-order independence at concrete
inputs. -/
theorem encode_deterministic_witness :
    encodeTransport (Message.Alias ⟨User.UserId "foo", "bar", none, none,
        none, []⟩) =
      encodeTransport (Message.Alias ⟨User.UserId "foo", "bar", none, none,
        none, []⟩) ∧
      mapInsert "a" Json.null (mapInsert "b" (Json.num 1) []) =
        mapInsert "b" (Json.num 1) (mapInsert "a" Json.null []) :=
  ⟨(encode_deterministic.1 _ _ rfl).1,
    encode_deterministic.2 "a" "b" Json.null (Json.num 1) [] (by decide)⟩

end Segment
